import Mathlib

/-!
Verification development for the survivor_prototype combat core.

Shallow embedding conventions:
- Bevy `Entity` ids are modelled as natural numbers.
- `f32` quantities are modelled as exact rationals (`ℚ`); integer game
  quantities (`u32`, `i32`) stay `ℕ` / `ℤ`.  Comparisons such as
  `distance <= radius` are restated over squared distances where the source
  takes a square root, which is equivalent for non-negative radii.
- An ECS system is a pure function from its queried world fragment (given as
  explicit lists / partial maps `ℕ → Option _`) and its event-reader input to
  the updated fragment plus the events it writes.  Bevy `Commands` are
  deferred: each run collects a command list and applies it after the event
  loop, mirroring Bevy's apply-at-sync-point semantics.
- Component insertion of a marker component that is already present is a
  no-op in Bevy; marker sets are therefore modelled as `Finset`/`Bool` maps.
-/

namespace Survivor

abbrev Entity := ℕ

/-! ## combat.rs -/

/-- Event `DamageEvent { target, amount, source }` from combat.rs. -/
structure DamageEvent where
  target : Entity
  amount : ℚ
  source : Option Entity
deriving Repr, DecidableEq

/-- Component `LastDamageTime { time, cooldown }` from combat.rs. -/
structure LastDamageTime where
  time : ℚ
  cooldown : ℚ
deriving Repr, DecidableEq

/-- `impl Default for LastDamageTime`: 0.25s between damage. -/
def LastDamageTime.defaultVal : LastDamageTime :=
  { time := 0, cooldown := 1/4 }

/-- Component `Health { current, maximum }` (components.rs; the damage
pipeline subtracts event amounts from `current`). -/
structure Health where
  current : ℚ
  maximum : ℚ
deriving Repr, DecidableEq

/-- Component `ProjectileStats` from combat.rs. -/
structure ProjectileStats where
  damage : ℚ
  pierce_remaining : ℕ
  pierce_cooldown : ℚ
  last_hit_time : ℚ
deriving Repr, DecidableEq

/-- `ProjectileStats::new(damage, pierce)` from combat.rs. -/
def ProjectileStats.new (damage : ℚ) (pierce : ℕ) : ProjectileStats :=
  { damage := damage
    pierce_remaining := pierce
    pierce_cooldown := 1/10
    last_hit_time := 0 }

/-- The world fragment queried by `handle_damage`: the `LastDamageTime`,
`Health` and `MarkedForDeath` component stores. -/
structure HandleState where
  lastDamage : Entity → Option LastDamageTime
  health : Entity → Option Health
  marked : Entity → Bool

/-- Deferred `Commands` issued by `handle_damage`. -/
inductive DamageCmd where
  | insertDefaultLDT (e : Entity)
  | insertMarked (e : Entity)
deriving Repr, DecidableEq

/-- The damage-application tail of the `handle_damage` loop body:
`health.current -= event.amount`, then mark for death if `current <= 0`.
The `MarkedForDeath` insert goes through `Commands` (deferred). -/
def applyDamageToHealth (st : HandleState) (ev : DamageEvent) :
    HandleState × List DamageCmd :=
  match st.health ev.target with
  | some h =>
      let h' : Health := { h with current := h.current - ev.amount }
      let st' : HandleState :=
        { st with health := fun e => if e = ev.target then some h' else st.health e }
      (st', if h'.current ≤ 0 then [DamageCmd.insertMarked ev.target] else [])
  | none => (st, [])

/-- One iteration of the `handle_damage` event loop (combat.rs:107-130).
Returns the updated immediate state, the deferred commands, and whether the
hit passed the cooldown gate (was not dropped by `continue`). -/
def handleDamageEvent (now : ℚ) (st : HandleState) (ev : DamageEvent) :
    HandleState × List DamageCmd × Bool :=
  match st.lastDamage ev.target with
  | some ld =>
      if now - ld.time < ld.cooldown then
        (st, [], false)
      else
        let st1 : HandleState :=
          { st with lastDamage := fun e =>
              if e = ev.target then some { ld with time := now } else st.lastDamage e }
        let (st2, cmds) := applyDamageToHealth st1 ev
        (st2, cmds, true)
  | none =>
      let (st1, cmds) := applyDamageToHealth st ev
      (st1, DamageCmd.insertDefaultLDT ev.target :: cmds, true)

/-- The `handle_damage` event loop over a batch of events read this run.
Also records, for the rate-limiting property, the (target, time) of each
event that passed the cooldown gate. -/
def handleDamageEvents (now : ℚ) (st : HandleState) :
    List DamageEvent → HandleState × List DamageCmd × List (Entity × ℚ)
  | [] => (st, [], [])
  | ev :: rest =>
      let (st1, cmds1, acc) := handleDamageEvent now st ev
      let (st2, cmds2, accs) := handleDamageEvents now st1 rest
      (st2, cmds1 ++ cmds2, (if acc then [(ev.target, now)] else []) ++ accs)

/-- Applying one deferred command at the sync point. -/
def applyDamageCmd (st : HandleState) : DamageCmd → HandleState
  | DamageCmd.insertDefaultLDT e =>
      { st with lastDamage := fun x =>
          if x = e then some LastDamageTime.defaultVal else st.lastDamage x }
  | DamageCmd.insertMarked e =>
      { st with marked := fun x => if x = e then true else st.marked x }

def applyDamageCmds (st : HandleState) (cmds : List DamageCmd) : HandleState :=
  cmds.foldl applyDamageCmd st

/-- One full run of the `handle_damage` system at time `now` (the Bevy
`time.elapsed_seconds()` is fixed for the whole run): process the event
batch, then apply deferred commands. -/
def handleDamageRun (now : ℚ) (st : HandleState) (events : List DamageEvent) :
    HandleState × List (Entity × ℚ) :=
  let (st1, cmds, accs) := handleDamageEvents now st events
  (applyDamageCmds st1 cmds, accs)

/-- A multi-tick trace: successive runs of `handle_damage`, each with its own
clock value and event batch.  Returns the final state and all gate-passing
(target, time) records in order. -/
def handleDamageTrace (st : HandleState) :
    List (ℚ × List DamageEvent) → HandleState × List (Entity × ℚ)
  | [] => (st, [])
  | (now, evs) :: rest =>
      let (st1, a1) := handleDamageRun now st evs
      let (st2, a2) := handleDamageTrace st1 rest
      (st2, a1 ++ a2)

/-- Times at which damage to target `e` was accepted (passed the cooldown
gate) along a trace. -/
def acceptedTimes (e : Entity) (st : HandleState)
    (trace : List (ℚ × List DamageEvent)) : List ℚ :=
  ((handleDamageTrace st trace).2.filter (fun p => p.1 = e)).map (fun p => p.2)

/-! ## death.rs and events.rs -/

/-- Component `Enemy { speed, experience_value }` from components.rs. -/
structure Enemy where
  speed : ℚ
  experience_value : ℕ
deriving Repr, DecidableEq

/-- Event `EntityDeathEvent { entity, position, exp_value }` from events.rs. -/
structure EntityDeathEvent where
  entity : Entity
  position : ℚ × ℚ
  exp_value : Option ℕ
deriving Repr, DecidableEq

/-- Resource `GameStats` from resources.rs. -/
structure GameStats where
  enemies_killed : ℕ
  time_elapsed : ℚ
  victory_threshold : ℕ
deriving Repr, DecidableEq

/-- The states of resources.rs `GameState` reachable from `death_system`. -/
inductive GameState where
  | mainMenu | settings | playing | levelUp | paused | gameOver | quitGame
deriving Repr, DecidableEq

/-- One row of the `marked_entities` query of `death_system`:
`(Entity, Option<&Transform>, Option<&Enemy>)` filtered `With<MarkedForDeath>`. -/
structure MarkedEntity where
  entity : Entity
  transform : Option (ℚ × ℚ)
  enemy : Option Enemy
deriving Repr, DecidableEq

/-- The outputs of one `death_system` run: the death events written, the
updated `GameStats`, the requested state transition, and the entities that
received a deferred `MarkedForDespawn` insert. -/
structure DeathOutput where
  events : List EntityDeathEvent
  stats : GameStats
  nextState : Option GameState
  despawns : List Entity
deriving Repr, DecidableEq

/-- The loop body of `death_system` over `marked_entities` (death.rs:35-49):
count Enemy-tagged kills, emit one death event per marked entity, and mark
each for despawn. -/
def deathMarkedLoop (stats : GameStats) :
    List MarkedEntity → GameStats × List EntityDeathEvent × List Entity
  | [] => (stats, [], [])
  | m :: rest =>
      let stats1 :=
        match m.enemy with
        | some _ => { stats with enemies_killed := stats.enemies_killed + 1 }
        | none => stats
      let ev : EntityDeathEvent :=
        { entity := m.entity
          position := m.transform.getD (0, 0)
          exp_value := m.enemy.map Enemy.experience_value }
      let (stats2, evs, desp) := deathMarkedLoop stats1 rest
      (stats2, ev :: evs, m.entity :: desp)

/-- `death_system` (death.rs:12-50).  `player` is the result of
`player_query.get_single()`; `marked` is the `marked_entities` query result
(one row per entity carrying `MarkedForDeath`). -/
def deathSystem (player : Option (Entity × Health)) (marked : List MarkedEntity)
    (stats : GameStats) : DeathOutput :=
  match player with
  | some (entity, health) =>
      if health.current ≤ 0 then
        { events := [{ entity := entity, position := (0, 0), exp_value := none }]
          stats := stats
          nextState := some GameState.gameOver
          despawns := [entity] }
      else
        let (stats2, evs, desp) := deathMarkedLoop stats marked
        { events := evs, stats := stats2, nextState := none, despawns := desp }
  | none =>
      let (stats2, evs, desp) := deathMarkedLoop stats marked
      { events := evs, stats := stats2, nextState := none, despawns := desp }

/-- Inserting the `MarkedForDeath` marker component on an entity: a Bevy
component insert, idempotent when the component is already present.  The set
of currently marked entities is a `Finset`. -/
def markForDeath (s : Finset Entity) (e : Entity) : Finset Entity :=
  insert e s

/-! ## experience.rs -/

/-- Component `Experience { current, level }` from experience.rs. -/
structure Experience where
  current : ℕ
  level : ℕ
deriving Repr, DecidableEq

/-- `calculate_experience_needed(level)` from experience.rs:
`(100f32 * 1.25f32.powi(level - 1)) as u32` — exponential scaling, truncated
to an unsigned integer. -/
def calculateExperienceNeeded (level : ℕ) : ℕ :=
  (Int.toNat ⌊(100 : ℚ) * (5/4 : ℚ) ^ (level - 1)⌋)

/-- `check_level_up` (experience.rs:62-78): on `current >= xp_needed`, bank
the leftover XP, increment the level, and trigger the level-up menu (the
returned Bool is whether `GameState::LevelUp` was set). -/
def checkLevelUp (e : Experience) : Experience × Bool :=
  let xpNeeded := calculateExperienceNeeded e.level
  if xpNeeded ≤ e.current then
    ({ current := e.current - xpNeeded, level := e.level + 1 }, true)
  else
    (e, false)

/-! ## collision.rs -/

/-- 2D vectors over exact rationals (the z component of the source's `Vec3`
is always 0 in these systems). -/
abbrev Vec2 := ℚ × ℚ

/-- Squared Euclidean distance; the source compares `length() <= r`, which is
equivalent to `dist2 <= r^2` for `r ≥ 0`. -/
def dist2 (a b : Vec2) : ℚ :=
  (a.1 - b.1) ^ 2 + (a.2 - b.2) ^ 2

def dotV (a b : Vec2) : ℚ :=
  a.1 * b.1 + a.2 * b.2

/-- `closest_point_on_line_segment` (collision.rs:164-175).  The source
computes `t = clamp(dot/line_length, 0, line_length) / line_length` with
`line_length = |line_vec|`; for positive length this equals
`clamp(dot/line_length², 0, 1)`, which is rational-valued and is used here. -/
def closestPointOnLineSegment (s e point : Vec2) : Vec2 :=
  let lineVec : Vec2 := e - s
  let pointVec : Vec2 := point - s
  let lineLen2 := dotV lineVec lineVec
  if lineLen2 = 0 then s
  else
    let t := min (max (dotV pointVec lineVec / lineLen2) 0) 1
    s + t • lineVec

/-- Component `Projectile`.  components.rs declares only `speed`; the
damage_system iteration in collision.rs also reads a `damage` field, so the
embedding carries both. -/
structure Projectile where
  speed : ℚ
  damage : ℚ
deriving Repr, DecidableEq

inductive CollisionType where
  | playerEnemy | projectileEnemy | enemyEnemy
deriving Repr, DecidableEq

/-- Event `CollisionEvent { entity_a, entity_b, collision_type }`. -/
structure CollisionEvent where
  entity_a : Entity
  entity_b : Entity
  collision_type : CollisionType
deriving Repr, DecidableEq

/-- `COLLISION_SUBSTEPS` (collision.rs:25). -/
def collisionSubsteps : ℕ := 4

/-- One projectile row of `projectile_query`: entity, `Transform` position
and `right()` direction, `PhysicsBody` radius, `Projectile` speed. -/
structure ProjBody where
  entity : Entity
  pos : Vec2
  right : Vec2
  radius : ℚ
  speed : ℚ
deriving Repr, DecidableEq

/-- One enemy row of `enemy_query`: entity, position, `PhysicsBody` radius. -/
structure EnemyBody where
  entity : Entity
  pos : Vec2
  radius : ℚ
deriving Repr, DecidableEq

/-- Point-in-circle test at a sub-step position (collision.rs:110-114),
restated on squared distances. -/
def circleHit (cur enemyPos : Vec2) (combinedRadius : ℚ) : Bool :=
  dist2 cur enemyPos ≤ combinedRadius ^ 2

/-- Closest-point-on-segment test against the swept path
(collision.rs:132-140), restated on squared distances. -/
def segHit (cur next enemyPos : Vec2) (combinedRadius : ℚ) : Bool :=
  dist2 (closestPointOnLineSegment cur next enemyPos) enemyPos ≤ combinedRadius ^ 2

/-- The inner enemy loop of one sub-step (collision.rs:109-156): the first
enemy passing the point-in-circle check or the segment check produces a
`ProjectileEnemy` collision event. -/
def checkEnemiesForHit (pe : Entity) (cur next : Vec2) (pRadius : ℚ) :
    List EnemyBody → Option CollisionEvent
  | [] => none
  | en :: rest =>
      let combR := pRadius + en.radius
      if circleHit cur en.pos combR then
        some { entity_a := pe, entity_b := en.entity
               collision_type := CollisionType.projectileEnemy }
      else if segHit cur next en.pos combR then
        some { entity_a := pe, entity_b := en.entity
               collision_type := CollisionType.projectileEnemy }
      else checkEnemiesForHit pe cur next pRadius rest

/-- The sub-step loop for one projectile (collision.rs:105-159): advance
`current_pos` by `step_velocity` each sub-step; a reported hit exits. -/
def runSubsteps (pe : Entity) (pRadius : ℚ) (enemies : List EnemyBody)
    (stepVelocity : Vec2) : Vec2 → ℕ → Option CollisionEvent
  | _, 0 => none
  | cur, n + 1 =>
      match checkEnemiesForHit pe cur (cur + stepVelocity) pRadius enemies with
      | some ev => some ev
      | none => runSubsteps pe pRadius enemies stepVelocity (cur + stepVelocity) n

/-- `step_velocity` (collision.rs:95-101): the per-sub-step displacement
`velocity * time.delta_seconds() / COLLISION_SUBSTEPS` with
`velocity = transform.right() * projectile.speed`. -/
def stepVelocity (p : ProjBody) (dt : ℚ) : Vec2 :=
  (dt / (collisionSubsteps : ℚ)) • (p.speed • p.right)

/-- The sub-step position of a projectile: `current_pos` after `k` advances
by `step_velocity` from the starting transform. -/
def substepPos (p : ProjBody) (dt : ℚ) (k : ℕ) : Vec2 :=
  p.pos + (k : ℚ) • stepVelocity p dt

/-- `projectile_physics_system` (collision.rs:86-161).  Note the source's
`return` on a hit exits the whole system, so the first hit found ends the
run with exactly that one collision event sent. -/
def projectilePhysicsSystem (enemies : List EnemyBody) (dt : ℚ) :
    List ProjBody → List CollisionEvent
  | [] => []
  | p :: rest =>
      match runSubsteps p.entity p.radius enemies (stepVelocity p dt) p.pos collisionSubsteps with
      | some ev => [ev]
      | none => projectilePhysicsSystem enemies dt rest

/-- The world fragment read and written by collision.rs `damage_system`:
the player's `Health`, the `(Health, Enemy)` store, the `Projectile` store,
the (untouched) `ProjectileStats` store, and the `DespawnMarker` set. -/
structure DamageWorld where
  playerHealth : Option Health
  enemies : Entity → Option (Health × Enemy)
  projectiles : Entity → Option Projectile
  projStats : Entity → Option ProjectileStats
  despawn : Entity → Bool

/-- The loop body of `damage_system` (collision.rs:301-324) for one
collision event.  Health mutations through queries are immediate;
`DespawnMarker` inserts go through `Commands` and are returned for deferred
application (so the `Without<DespawnMarker>` filter sees the flags from the
start of the run).  `PlayerEnemy` contact deals `10.0 * time.delta_seconds()`;
`ProjectileEnemy` deals `projectile.damage` to the enemy, always marks the
projectile for despawn, and marks the enemy too when its health drops to 0;
`EnemyEnemy` never applies damage. -/
def damageEventBody (dt : ℚ) (st : DamageWorld) (ev : CollisionEvent) :
    DamageWorld × List Entity :=
  match ev.collision_type with
  | CollisionType.playerEnemy =>
      (match st.playerHealth with
       | some h =>
           ({ st with playerHealth := some { h with current := h.current - 10 * dt } }, [])
       | none => (st, []))
  | CollisionType.projectileEnemy =>
      (match st.projectiles ev.entity_a with
       | some p =>
           if st.despawn ev.entity_b then (st, [])
           else
             match st.enemies ev.entity_b with
             | some (h, en) =>
                 let h' : Health := { h with current := h.current - p.damage }
                 let st1 : DamageWorld :=
                   { st with enemies := fun e =>
                       if e = ev.entity_b then some (h', en) else st.enemies e }
                 (st1, ev.entity_a :: (if h'.current ≤ 0 then [ev.entity_b] else []))
             | none => (st, [])
       | none => (st, []))
  | CollisionType.enemyEnemy => (st, [])

/-- The event loop of `damage_system`, accumulating deferred despawn marks. -/
def damageSystemEvents (dt : ℚ) (st : DamageWorld) :
    List CollisionEvent → DamageWorld × List Entity
  | [] => (st, [])
  | ev :: rest =>
      let (st1, cmds1) := damageEventBody dt st ev
      let (st2, cmds2) := damageSystemEvents dt st1 rest
      (st2, cmds1 ++ cmds2)

/-- Apply the deferred `DespawnMarker` inserts. -/
def applyDespawns (st : DamageWorld) (cmds : List Entity) : DamageWorld :=
  cmds.foldl
    (fun s e => { s with despawn := fun x => if x = e then true else s.despawn x }) st

/-- One full run of collision.rs `damage_system`. -/
def damageSystem (dt : ℚ) (st : DamageWorld) (events : List CollisionEvent) :
    DamageWorld :=
  let (st1, cmds) := damageSystemEvents dt st events
  applyDespawns st1 cmds

/-! ## types.rs, weapons/mod.rs, upgrade.rs -/

inductive Rarity where
  | common | uncommon | rare | epic | legendary
deriving Repr, DecidableEq

inductive EquipmentType where
  | armor | ring | amulet | boots | gloves
deriving Repr, DecidableEq

inductive StatType where
  | health | speed | attack | defense | luck
deriving Repr, DecidableEq

/-- `WeaponType` (weapons/mod.rs:236): only `MagickCircle` exists. -/
inductive WeaponType where
  | magickCircle
deriving Repr, DecidableEq

inductive PatternType where
  | protection | binding | banishment | invocation | manifestation
deriving Repr, DecidableEq

/-- `WeaponStat` (weapons/mod.rs:55). -/
inductive WeaponStat where
  | damage | area | duration | cooldown
deriving Repr, DecidableEq

/-- `MagickCircleUpgrade` as used by weapons/mod.rs (its defining module
iteration is not under src/, but its three constructors are fully determined
by `get_progression`, `get_limit_break_options` and `handle_weapon_upgrade`).
`offset_angle` values are written `PI * k` in the source; the embedding
stores the rational coefficient `k`. -/
inductive MagickCircleUpgrade where
  | addCircle (pattern : PatternType) (offset_angle : ℚ)
  | statUpgrade (stat : WeaponStat) (bonus : ℤ) (is_limit_break : Bool)
  | combined (upgrades : List MagickCircleUpgrade)
deriving Repr

/-- `WeaponUpgrade` (weapons/mod.rs:324). -/
inductive WeaponUpgrade where
  | magickCircle (u : MagickCircleUpgrade)
deriving Repr

/-- `GenericUpgrade` (upgrade.rs:52). -/
inductive GenericUpgrade where
  | healthPickup (amount : ℤ)
  | resourcePickup (amount : ℕ)
deriving Repr

/-- `UpgradeType` (upgrade.rs:67). -/
inductive UpgradeType where
  | weapon (wt : WeaponType) (u : WeaponUpgrade)
  | generic (g : GenericUpgrade)
  | equipment (e : EquipmentType)
  | stat (s : StatType)
deriving Repr

/-- `UpgradeChoice` (menu.rs:46). -/
structure UpgradeChoice where
  upgrade_type : UpgradeType
  description : String
  rarity : Rarity
deriving Repr

/-- `UpgradeConfirmedEvent` (menu.rs:60). -/
structure UpgradeConfirmedEvent where
  upgrade : UpgradeChoice
deriving Repr

/-- `WeaponConfig` (weapons/mod.rs:74). -/
structure WeaponConfig where
  weapon_type : WeaponType
  level : ℕ
deriving Repr, DecidableEq

/-- `WeaponInventory` (weapons/mod.rs:108). -/
structure WeaponInventory where
  weapons : List WeaponConfig
deriving Repr, DecidableEq

/-- `MAX_WEAPON_LEVEL` (weapons/mod.rs:18). -/
def maxWeaponLevel : ℕ := 8

def weaponTypeDisplay : WeaponType → String
  | WeaponType.magickCircle => "Magick Circle"

def patternTypeDisplay : PatternType → String
  | PatternType.protection => "Protection"
  | PatternType.binding => "Binding"
  | PatternType.banishment => "Banishment"
  | PatternType.invocation => "Invocation"
  | PatternType.manifestation => "Manifestation"

def weaponStatDisplay : WeaponStat → String
  | WeaponStat.damage => "Damage"
  | WeaponStat.area => "Area"
  | WeaponStat.duration => "Duration"
  | WeaponStat.cooldown => "Cooldown"

/-- Modelled from the spec: the `Display` impl for `MagickCircleUpgrade`
belongs to a module iteration missing from src/; the spec only requires a
human-readable description, which no claim inspects. -/
def magickCircleUpgradeDisplay : MagickCircleUpgrade → String
  | MagickCircleUpgrade.addCircle p _ =>
      "Add a " ++ patternTypeDisplay p ++ " Magick Circle"
  | MagickCircleUpgrade.statUpgrade s b _ =>
      "Upgrade " ++ weaponStatDisplay s ++ " by " ++ toString b
  | MagickCircleUpgrade.combined _ => "Combined upgrade"

def weaponUpgradeDisplay : WeaponUpgrade → String
  | WeaponUpgrade.magickCircle u => magickCircleUpgradeDisplay u

/-- `WeaponType::get_progression` (weapons/mod.rs:340-436): the data-driven
upgrade table for levels 2..8. -/
def WeaponType.getProgression : WeaponType → List WeaponUpgrade
  | WeaponType.magickCircle =>
      [ WeaponUpgrade.magickCircle (MagickCircleUpgrade.combined
          [ MagickCircleUpgrade.statUpgrade WeaponStat.damage 2 false
          , MagickCircleUpgrade.statUpgrade WeaponStat.area 1 false ])
      , WeaponUpgrade.magickCircle
          (MagickCircleUpgrade.addCircle PatternType.banishment 1)
      , WeaponUpgrade.magickCircle (MagickCircleUpgrade.combined
          [ MagickCircleUpgrade.addCircle PatternType.banishment (1/2)
          , MagickCircleUpgrade.statUpgrade WeaponStat.damage 1 false
          , MagickCircleUpgrade.statUpgrade WeaponStat.area 1 false ])
      , WeaponUpgrade.magickCircle
          (MagickCircleUpgrade.addCircle PatternType.banishment (3/2))
      , WeaponUpgrade.magickCircle (MagickCircleUpgrade.combined
          [ MagickCircleUpgrade.addCircle PatternType.banishment 2
          , MagickCircleUpgrade.statUpgrade WeaponStat.damage 2 false
          , MagickCircleUpgrade.statUpgrade WeaponStat.area 1 false ])
      , WeaponUpgrade.magickCircle (MagickCircleUpgrade.combined
          [ MagickCircleUpgrade.addCircle PatternType.banishment (5/2)
          , MagickCircleUpgrade.statUpgrade WeaponStat.damage 1 false
          , MagickCircleUpgrade.statUpgrade WeaponStat.area 1 false ])
      , WeaponUpgrade.magickCircle (MagickCircleUpgrade.combined
          [ MagickCircleUpgrade.addCircle PatternType.banishment 3
          , MagickCircleUpgrade.statUpgrade WeaponStat.damage 3 false
          , MagickCircleUpgrade.statUpgrade WeaponStat.area 2 false ])
      ]

/-- `WeaponType::get_limit_break_options` (weapons/mod.rs:438-467). -/
def WeaponType.getLimitBreakOptions : WeaponType → List WeaponUpgrade
  | WeaponType.magickCircle =>
      [ WeaponUpgrade.magickCircle
          (MagickCircleUpgrade.statUpgrade WeaponStat.damage 2 true)
      , WeaponUpgrade.magickCircle
          (MagickCircleUpgrade.statUpgrade WeaponStat.area 2 true)
      , WeaponUpgrade.magickCircle
          (MagickCircleUpgrade.statUpgrade WeaponStat.duration 2 true)
      , WeaponUpgrade.magickCircle
          (MagickCircleUpgrade.statUpgrade WeaponStat.cooldown (-2) true)
      ]

/-- `UpgradePool::generate_generic_choices` (upgrade.rs:102-115): the fixed
two-element generic pool. -/
def generateGenericChoices : List UpgradeChoice :=
  [ { upgrade_type := UpgradeType.generic (GenericUpgrade.healthPickup 20)
      description := "Restore health with a Philosopher\x27s Elixir"
      rarity := Rarity.common }
  , { upgrade_type := UpgradeType.generic (GenericUpgrade.resourcePickup 100)
      description := "Gather Void Shards"
      rarity := Rarity.common } ]

/-- The per-weapon body of `generate_weapon_upgrades` (upgrade.rs:120-165).
The source indexes `progression.get(level as usize - 1)`; Lean's truncated
subtraction agrees with it for `level ≥ 1` (the level-0 case underflows in
the source and is unreachable: configs are created at level 1). -/
def weaponUpgradesFor (wc : WeaponConfig) : List UpgradeChoice :=
  if wc.level < maxWeaponLevel then
    match wc.weapon_type.getProgression.get? (wc.level - 1) with
    | some nextUpgrade =>
        [ { upgrade_type := UpgradeType.weapon wc.weapon_type nextUpgrade
            description := weaponTypeDisplay wc.weapon_type ++ " Level "
              ++ toString (wc.level + 1) ++ ", " ++ weaponUpgradeDisplay nextUpgrade
            rarity := Rarity.common } ]
    | none => []
  else
    wc.weapon_type.getLimitBreakOptions.map (fun lb =>
      { upgrade_type := UpgradeType.weapon wc.weapon_type lb
        description := weaponTypeDisplay wc.weapon_type ++ " Level "
          ++ toString (wc.level + 1) ++ ", " ++ weaponUpgradeDisplay lb
        rarity := Rarity.common })

/-- `UpgradePool::generate_weapon_upgrades` (upgrade.rs:117-170). -/
def generateWeaponUpgrades (inventory : WeaponInventory) : List UpgradeChoice :=
  inventory.weapons.foldr (fun wc acc => weaponUpgradesFor wc ++ acc) []

/-- `UpgradePool::calculate_count` (upgrade.rs:202-209): the RNG roll is
passed in as `roll` (the source draws `rng.gen::<f32>()`). -/
def calculateCount (roll : ℚ) (luck : ℤ) : ℕ :=
  if roll < (luck : ℚ) * (2/100) then 4 else 3

/-- `UpgradePool::generate_choices` (upgrade.rs:172-200).  `sel` stands for
rand's `choose_multiple` used by `select_random_owned` (upgrade.rs:222-228):
it returns `min count len` randomly chosen elements; theorems assume only
that length contract. -/
def generateChoices (sel : List UpgradeChoice → ℕ → List UpgradeChoice)
    (count : ℕ) (inventory : WeaponInventory) : List UpgradeChoice :=
  let choices := generateWeaponUpgrades inventory
  match compare choices.length count with
  | Ordering.gt => sel choices count
  | Ordering.lt => choices ++ sel generateGenericChoices (count - choices.length)
  | Ordering.eq => choices

/-! ## weapons/mod.rs: firing and upgrade application -/

/-- Minimal model of a Bevy repeating `Timer`: duration and accumulated
elapsed time; `just_finished` holds when the elapsed time has reached the
duration after the tick. -/
structure WTimer where
  duration : ℚ
  elapsed : ℚ
deriving Repr, DecidableEq

def WTimer.setDuration (t : WTimer) (d : ℚ) : WTimer :=
  { t with duration := d }

def WTimer.tick (t : WTimer) (delta : ℚ) : WTimer :=
  { t with elapsed := t.elapsed + delta }

def WTimer.justFinished (t : WTimer) : Bool :=
  t.duration ≤ t.elapsed

/-- `WeaponCooldown` (weapons/mod.rs:251). -/
structure WeaponCooldown where
  timer : WTimer
  base_duration : ℚ
  cooldown_bonus : ℤ
deriving Repr, DecidableEq

/-- `WeaponDamage` (weapons/mod.rs:280). -/
structure WeaponDamage where
  base_amount : ℤ
  damage_bonus : ℤ
deriving Repr, DecidableEq

/-- `WeaponArea` (weapons/mod.rs:291). -/
structure WeaponArea where
  base_radius : ℚ
  area_bonus : ℤ
deriving Repr, DecidableEq

/-- `MagickCircle` (weapons/magick_circle.rs:20). -/
structure MagickCircle where
  patterns : List PatternType
  num_sigils : ℕ
deriving Repr, DecidableEq

/-- One attack spawned by `spawn_magick_circle_attack` as parameterized by
`weapon_firing_system`: effective damage, effective radius, pattern, and the
angular offset (`None` for the centered first circle; angles are stored in
turns, i.e. multiples of TAU). -/
structure SpawnedAttack where
  damage : ℤ
  radius : ℚ
  pattern : PatternType
  offset_turns : Option ℚ
deriving Repr, DecidableEq

/-- The attack spawning block of `weapon_firing_system`
(weapons/mod.rs:584-621): first circle centered, additional circles evenly
spaced by `TAU / (patterns.len() - 1)`.  An empty pattern list would panic in
the source (`patterns[0]`); spawned weapons always carry at least one
pattern. -/
def spawnMagickCircleAttacks (d : ℤ) (r : ℚ) (circle : MagickCircle) :
    List SpawnedAttack :=
  match circle.patterns with
  | [] => []
  | p0 :: rest =>
      let angleStep : ℚ := 1 / (rest.length : ℚ)
      { damage := d, radius := r, pattern := p0, offset_turns := none }
        :: rest.enum.map (fun ip =>
            { damage := d, radius := r, pattern := ip.2
              offset_turns := some ((ip.1 : ℚ) * angleStep) })

/-- `effective_cooldown` (weapons/mod.rs:557-559):
`base_duration * ((100 + cooldown_bonus) as f32 / 100.0) * (1.0 - cooldown_reduction.percent)`. -/
def effectiveCooldown (cd : WeaponCooldown) (cooldown_reduction : ℚ) : ℚ :=
  cd.base_duration * (((100 : ℤ) + cd.cooldown_bonus : ℤ) / (100 : ℚ)) * (1 - cooldown_reduction)

/-- `effective_damage` (weapons/mod.rs:566-567):
`(base_amount as f32 * ((100 + damage_bonus) as f32 / 100.0) * damage_multiplier.factor).floor() as i32`. -/
def effectiveDamage (dmg : WeaponDamage) (damage_multiplier : ℚ) : ℤ :=
  Int.floor ((dmg.base_amount : ℚ)
    * (((100 : ℤ) + dmg.damage_bonus : ℤ) / (100 : ℚ)) * damage_multiplier)

/-- `effective_radius` (weapons/mod.rs:569-570):
`base_radius * ((100 + area_bonus) as f32 / 100.0) * area_multiplier.factor`. -/
def effectiveRadius (area : WeaponArea) (area_multiplier : ℚ) : ℚ :=
  area.base_radius * (((100 : ℤ) + area.area_bonus : ℤ) / (100 : ℚ)) * area_multiplier

/-- The per-weapon body of `weapon_firing_system` (weapons/mod.rs:540-626)
once the player stats are found: compute the effective cooldown, retime the
timer, tick it, and spawn the attacks with the effective damage and radius
when the timer just finished. -/
def weaponFiringStep (cooldown_reduction damage_multiplier area_multiplier : ℚ)
    (cd : WeaponCooldown) (dmg : WeaponDamage) (area : WeaponArea)
    (circle : MagickCircle) (delta : ℚ) : WeaponCooldown × List SpawnedAttack :=
  let timer1 := (cd.timer.setDuration (effectiveCooldown cd cooldown_reduction)).tick delta
  let cd1 : WeaponCooldown := { cd with timer := timer1 }
  if timer1.justFinished then
    (cd1, spawnMagickCircleAttacks (effectiveDamage dmg damage_multiplier)
      (effectiveRadius area area_multiplier) circle)
  else
    (cd1, [])

/-- The spec formula for the effective cooldown:
base_duration × (1 + cooldown_bonus%) × (1 − player_cooldown_reduction). -/
def specEffectiveCooldown (base : ℚ) (bonus : ℤ) (reduction : ℚ) : ℚ :=
  base * (1 + (bonus : ℚ) / 100) * (1 - reduction)

/-- The spec formula for the effective damage:
base_damage × (1 + damage_bonus%) × player_damage_multiplier. -/
def specEffectiveDamage (base : ℤ) (bonus : ℤ) (mult : ℚ) : ℚ :=
  (base : ℚ) * (1 + (bonus : ℚ) / 100) * mult

/-- The spec formula for the effective area:
base_radius × (1 + area_bonus%) × player_area_multiplier. -/
def specEffectiveArea (base : ℚ) (bonus : ℤ) (mult : ℚ) : ℚ :=
  base * (1 + (bonus : ℚ) / 100) * mult

/-- One weapon row of `handle_weapon_upgrade`'s `weapon_query`
(weapons/mod.rs:149-155). -/
structure WeaponEntry where
  parent : Entity
  circle : MagickCircle
  cooldown : WeaponCooldown
  damage : WeaponDamage
  area : WeaponArea
deriving Repr, DecidableEq

/-- The world fragment of `handle_weapon_upgrade`: the single player with
its `WeaponInventory`, and the weapon entities. -/
structure PlayerWeapons where
  player : Entity
  inventory : WeaponInventory
  weapons : List WeaponEntry
deriving Repr, DecidableEq

/-- The `upgrades` flattening (weapons/mod.rs:177-183): a `Combined` upgrade
is split into its parts, anything else is a singleton. -/
def flattenMagickUpgrade : MagickCircleUpgrade → List MagickCircleUpgrade
  | MagickCircleUpgrade.combined us => us
  | u => [u]

/-- The per-upgrade match (weapons/mod.rs:186-222).  A nested `Combined` is
`unreachable!` in the source; the `Duration` stat has no component yet. -/
def applySingleMagickUpgrade (w : WeaponEntry) :
    MagickCircleUpgrade → WeaponEntry
  | MagickCircleUpgrade.addCircle pattern _ =>
      { w with circle := { w.circle with patterns := w.circle.patterns ++ [pattern] } }
  | MagickCircleUpgrade.statUpgrade stat bonus _ =>
      match stat with
      | WeaponStat.damage =>
          { w with damage := { w.damage with damage_bonus := w.damage.damage_bonus + bonus } }
      | WeaponStat.area =>
          { w with area := { w.area with area_bonus := w.area.area_bonus + bonus } }
      | WeaponStat.cooldown =>
          { w with cooldown := { w.cooldown with cooldown_bonus := w.cooldown.cooldown_bonus + bonus } }
      | WeaponStat.duration => w
  | MagickCircleUpgrade.combined _ => w

def applyWeaponUpgradeToEntry (up : WeaponUpgrade) (w : WeaponEntry) : WeaponEntry :=
  match up with
  | WeaponUpgrade.magickCircle mu => (flattenMagickUpgrade mu).foldl applySingleMagickUpgrade w

/-- `iter_mut().find(...)` followed by `level += 1` on the first inventory
entry of the given weapon type. -/
def bumpFirstConfig (wt : WeaponType) : List WeaponConfig → List WeaponConfig
  | [] => []
  | c :: rest =>
      if c.weapon_type = wt then { c with level := c.level + 1 } :: rest
      else c :: bumpFirstConfig wt rest

/-- One iteration of the `handle_weapon_upgrade` event loop
(weapons/mod.rs:158-231). -/
def handleWeaponUpgradeEvent (st : PlayerWeapons) (ev : UpgradeConfirmedEvent) :
    PlayerWeapons :=
  match ev.upgrade.upgrade_type with
  | UpgradeType.weapon wt up =>
      if (st.inventory.weapons.find? (fun c => c.weapon_type == wt)).isSome then
        { st with
          inventory := { weapons := bumpFirstConfig wt st.inventory.weapons }
          weapons := st.weapons.map (fun w =>
            if w.parent = st.player then applyWeaponUpgradeToEntry up w else w) }
      else st
  | _ => st

/-- `handle_weapon_upgrade` (weapons/mod.rs:147-233) over an event batch. -/
def handleWeaponUpgrade (st : PlayerWeapons) (events : List UpgradeConfirmedEvent) :
    PlayerWeapons :=
  events.foldl handleWeaponUpgradeEvent st

/-! # Helper lemmas -/

/-- The death event built for one marked entity (death.rs:41-45). -/
def mkDeathEvent (m : MarkedEntity) : EntityDeathEvent :=
  { entity := m.entity
    position := m.transform.getD (0, 0)
    exp_value := m.enemy.map Enemy.experience_value }

lemma deathMarkedLoop_eq (stats : GameStats) (l : List MarkedEntity) :
    deathMarkedLoop stats l =
      ({ stats with enemies_killed :=
          stats.enemies_killed + (l.filter (fun m => m.enemy.isSome)).length },
       l.map mkDeathEvent,
       l.map MarkedEntity.entity) := by
  induction l generalizing stats with
  | nil => simp [deathMarkedLoop]
  | cons m rest ih =>
      cases hm : m.enemy with
      | none => simp [deathMarkedLoop, hm, ih, mkDeathEvent]
      | some en =>
          simp [deathMarkedLoop, hm, ih, mkDeathEvent]
          omega

lemma filter_entity_nil (e : Entity) (l : List MarkedEntity)
    (h : e ∉ l.map MarkedEntity.entity) :
    l.filter (fun m => m.entity == e) = [] := by
  induction l with
  | nil => rfl
  | cons m rest ih =>
      simp only [List.map_cons, List.mem_cons] at h
      push_neg at h
      simp [List.filter_cons, Ne.symm h.1, ih h.2]

lemma count_entities_le_one (e : Entity) (l : List MarkedEntity)
    (h : (l.map MarkedEntity.entity).Nodup) :
    (l.filter (fun m => m.entity == e)).length ≤ 1 := by
  induction l with
  | nil => simp
  | cons m rest ih =>
      simp only [List.map_cons, List.nodup_cons] at h
      by_cases he : m.entity = e
      · subst he
        rw [List.filter_cons]
        simp only [beq_self_eq_true, if_pos]
        rw [filter_entity_nil m.entity rest h.1]
        simp
      · rw [List.filter_cons]
        simp [he, ih h.2]

lemma filter_map_mkDeathEvent (e : Entity) (l : List MarkedEntity) :
    ((l.map mkDeathEvent).filter (fun ev => ev.entity == e)).length
      = (l.filter (fun m => m.entity == e)).length := by
  induction l with
  | nil => rfl
  | cons m rest ih =>
      by_cases he : m.entity = e
      · simp [mkDeathEvent, List.filter_cons, he, ih]
      · simp [mkDeathEvent, List.filter_cons, he, ih]

/-- Whether the player-death branch of `death_system` fires (death.rs:21-31). -/
def playerDeadCheck : Option (Entity × Health) → Bool
  | some (_, h) => decide (h.current ≤ 0)
  | none => false

lemma calculateExperienceNeeded_one : calculateExperienceNeeded 1 = 100 := by
  norm_num [calculateExperienceNeeded]
  rfl

lemma calculateExperienceNeeded_two : calculateExperienceNeeded 2 = 125 := by
  norm_num [calculateExperienceNeeded]
  rfl

lemma damageEventBody_frame (dt : ℚ) (st : DamageWorld) (ev : CollisionEvent) :
    (damageEventBody dt st ev).1.projStats = st.projStats
    ∧ (damageEventBody dt st ev).1.projectiles = st.projectiles
    ∧ (damageEventBody dt st ev).1.despawn = st.despawn
    ∧ ∀ e, ((damageEventBody dt st ev).1.enemies e).isSome = (st.enemies e).isSome := by
  cases hct : ev.collision_type with
  | playerEnemy =>
      cases hph : st.playerHealth with
      | none => simp [damageEventBody, hct, hph]
      | some h => simp [damageEventBody, hct, hph]
  | projectileEnemy =>
      cases hp : st.projectiles ev.entity_a with
      | none => simp [damageEventBody, hct, hp]
      | some p =>
          cases hd : st.despawn ev.entity_b with
          | true => simp [damageEventBody, hct, hp, hd]
          | false =>
              cases he : st.enemies ev.entity_b with
              | none => simp [damageEventBody, hct, hp, hd, he]
              | some pr =>
                  refine ⟨?_, ?_, ?_, ?_⟩
                  · simp [damageEventBody, hct, hp, hd, he]
                  · simp [damageEventBody, hct, hp, hd, he]
                  · simp [damageEventBody, hct, hp, hd, he]
                  · intro e
                    by_cases hb : e = ev.entity_b
                    · subst hb; simp [damageEventBody, hct, hp, hd, he]
                    · simp [damageEventBody, hct, hp, hd, he, hb]
  | enemyEnemy => simp [damageEventBody, hct]

lemma applyDespawns_projStats (cmds : List Entity) : ∀ (st : DamageWorld),
    (applyDespawns st cmds).projStats = st.projStats := by
  induction cmds with
  | nil => intro st; rfl
  | cons c rest ih => intro st; simpa [applyDespawns, List.foldl_cons] using ih _

lemma applyDespawns_mono (cmds : List Entity) : ∀ (st : DamageWorld) (e : Entity),
    st.despawn e = true → (applyDespawns st cmds).despawn e = true := by
  induction cmds with
  | nil => intro st e h; exact h
  | cons c rest ih =>
      intro st e h
      have hrw : (applyDespawns st (c :: rest)) = applyDespawns
          { st with despawn := fun x => if x = c then true else st.despawn x } rest := rfl
      rw [hrw]
      apply ih
      by_cases hc : e = c <;> simp [hc, h]

lemma applyDespawns_mem (cmds : List Entity) : ∀ (st : DamageWorld) (e : Entity),
    e ∈ cmds → (applyDespawns st cmds).despawn e = true := by
  induction cmds with
  | nil => intro st e h; cases h
  | cons c rest ih =>
      intro st e h
      have hrw : (applyDespawns st (c :: rest)) = applyDespawns
          { st with despawn := fun x => if x = c then true else st.despawn x } rest := rfl
      rw [hrw]
      rcases List.mem_cons.mp h with h1 | h2
      · apply applyDespawns_mono
        simp [h1]
      · exact ih _ _ h2

lemma damageSystemEvents_frame (dt : ℚ) (evs : List CollisionEvent) :
    ∀ (st : DamageWorld),
    (damageSystemEvents dt st evs).1.projStats = st.projStats
    ∧ (damageSystemEvents dt st evs).1.projectiles = st.projectiles
    ∧ (damageSystemEvents dt st evs).1.despawn = st.despawn := by
  induction evs with
  | nil => intro st; exact ⟨rfl, rfl, rfl⟩
  | cons ev rest ih =>
      intro st
      obtain ⟨f1, f2, f3, _⟩ := damageEventBody_frame dt st ev
      have hrw : damageSystemEvents dt st (ev :: rest)
          = ((damageSystemEvents dt (damageEventBody dt st ev).1 rest).1,
             (damageEventBody dt st ev).2
               ++ (damageSystemEvents dt (damageEventBody dt st ev).1 rest).2) := by
        simp [damageSystemEvents]
      obtain ⟨g1, g2, g3⟩ := ih (damageEventBody dt st ev).1
      rw [hrw]
      exact ⟨g1.trans f1, g2.trans f2, g3.trans f3⟩

lemma damageEventBody_hit_cmd (dt : ℚ) (st : DamageWorld) (ev : CollisionEvent)
    (hct : ev.collision_type = CollisionType.projectileEnemy)
    (hp : (st.projectiles ev.entity_a).isSome = true)
    (hd : st.despawn ev.entity_b = false)
    (he : (st.enemies ev.entity_b).isSome = true) :
    ev.entity_a ∈ (damageEventBody dt st ev).2 := by
  rcases Option.isSome_iff_exists.mp hp with ⟨p, hp2⟩
  rcases Option.isSome_iff_exists.mp he with ⟨pr, he2⟩
  cases pr with
  | mk h en => simp [damageEventBody, hct, hp2, hd, he2]

lemma damageSystemEvents_hit (dt : ℚ) (evs : List CollisionEvent) :
    ∀ (st : DamageWorld) (ev : CollisionEvent), ev ∈ evs →
    ev.collision_type = CollisionType.projectileEnemy →
    (st.projectiles ev.entity_a).isSome = true →
    st.despawn ev.entity_b = false →
    (st.enemies ev.entity_b).isSome = true →
    ev.entity_a ∈ (damageSystemEvents dt st evs).2 := by
  induction evs with
  | nil => intro st ev h; cases h
  | cons ev0 rest ih =>
      intro st ev hmem hct hp hd he
      have hrw : damageSystemEvents dt st (ev0 :: rest)
          = ((damageSystemEvents dt (damageEventBody dt st ev0).1 rest).1,
             (damageEventBody dt st ev0).2
               ++ (damageSystemEvents dt (damageEventBody dt st ev0).1 rest).2) := by
        simp [damageSystemEvents]
      rw [hrw]
      simp only [List.mem_append]
      rcases List.mem_cons.mp hmem with h1 | h2
      · subst h1
        exact Or.inl (damageEventBody_hit_cmd dt st ev hct hp hd he)
      · obtain ⟨f1, f2, f3, f4⟩ := damageEventBody_frame dt st ev0
        refine Or.inr (ih _ ev h2 hct ?_ ?_ ?_)
        · rw [f2]; exact hp
        · rw [f3]; exact hd
        · rw [f4]; exact he

/-- A world holding one projectile (entity 1, `ProjectileStats` with
pierce_remaining = 2) and one live enemy (entity 2, health 50). -/
def pierceWorld : DamageWorld :=
  { playerHealth := some { current := 100, maximum := 100 }
    enemies := fun e =>
      if e = 2 then some ({ current := 50, maximum := 50 }, { speed := 30, experience_value := 5 })
      else none
    projectiles := fun e => if e = 1 then some { speed := 300, damage := 5 } else none
    projStats := fun e => if e = 1 then some (ProjectileStats.new 5 2) else none
    despawn := fun _ => false }

/-- A single valid projectile-enemy hit against `pierceWorld`. -/
def pierceHit : CollisionEvent :=
  { entity_a := 1, entity_b := 2, collision_type := CollisionType.projectileEnemy }

/-! # Claim theorems -/

/-- Claim C1, counterexample: a projectile with pierce_remaining = 2 takes a
single valid hit; the damage pipeline marks it for despawn anyway and its
pierce count is not decremented (still 2, not 1), so it does not survive to
pierce further targets as the claim states. -/
theorem pierce_claim_counterexample :
    (damageSystem 1 pierceWorld [pierceHit]).despawn 1 = true
    ∧ ((damageSystem 1 pierceWorld [pierceHit]).projStats 1).map
        ProjectileStats.pierce_remaining = some 2 := by
  constructor
  · norm_num [damageSystem, damageSystemEvents, damageEventBody, pierceWorld, pierceHit,
      applyDespawns, ProjectileStats.new]
  · norm_num [damageSystem, damageSystemEvents, damageEventBody, pierceWorld, pierceHit,
      applyDespawns, ProjectileStats.new]

/-- Claim C1, amended: the damage pipeline never modifies `ProjectileStats`
(so pierce-remaining is trivially non-increasing and never negative), and a
valid projectile-enemy hit (projectile present, enemy present and not yet
despawn-marked) always marks the projectile for despawn, regardless of its
pierce count. -/
theorem damage_system_pierce_amended (dt : ℚ) (st : DamageWorld)
    (evs : List CollisionEvent) :
    (∀ e, (damageSystem dt st evs).projStats e = st.projStats e)
    ∧ ∀ ev ∈ evs, ev.collision_type = CollisionType.projectileEnemy →
        (st.projectiles ev.entity_a).isSome = true →
        st.despawn ev.entity_b = false →
        (st.enemies ev.entity_b).isSome = true →
        (damageSystem dt st evs).despawn ev.entity_a = true := by
  constructor
  · intro e
    show (applyDespawns _ _).projStats e = _
    rw [applyDespawns_projStats, (damageSystemEvents_frame dt evs st).1]
  · intro ev hmem hct hp hd he
    show (applyDespawns _ _).despawn ev.entity_a = true
    exact applyDespawns_mem _ _ _ (damageSystemEvents_hit dt evs st ev hmem hct hp hd he)

/-- Witness for `damage_system_pierce_amended` at a concrete world. -/
theorem damage_system_pierce_amended_witness :
    (damageSystem 1 pierceWorld [pierceHit]).despawn 1 = true :=
  (damage_system_pierce_amended 1 pierceWorld [pierceHit]).2 pierceHit
    (List.mem_singleton_self pierceHit) rfl rfl rfl rfl

/-- Claim C2, counterexample: with the player at health 0, `death_system`
does emit a death event for the player entity, contrary to the claim that no
death event is emitted for the player. -/
theorem player_death_event_counterexample :
    (deathSystem (some (0, { current := 0, maximum := 100 })) []
      { enemies_killed := 0, time_elapsed := 0, victory_threshold := 0 }).events.filter
        (fun ev => ev.entity == 0) ≠ [] := by
  decide

/-- Claim C2, amended: when the player's Health current value is ≤ 0, the
death system emits exactly one death event, and it is for the player (at
position zero with no experience reward); it triggers the terminal game-over
transition, marks the player for despawn (removal happens in the cleanup
stage), and returns early without processing other marked entities. -/
theorem player_death_gameover_amended (p : Entity) (h : Health)
    (marked : List MarkedEntity) (stats : GameStats) (hdead : h.current ≤ 0) :
    deathSystem (some (p, h)) marked stats =
      { events := [{ entity := p, position := (0, 0), exp_value := none }]
        stats := stats
        nextState := some GameState.gameOver
        despawns := [p] } := by
  simp [deathSystem, hdead]

/-- Witness for `player_death_gameover_amended` at a concrete player. -/
theorem player_death_gameover_amended_witness :
    deathSystem (some (7, { current := -3, maximum := 100 })) []
        { enemies_killed := 4, time_elapsed := 0, victory_threshold := 0 } =
      { events := [{ entity := 7, position := (0, 0), exp_value := none }]
        stats := { enemies_killed := 4, time_elapsed := 0, victory_threshold := 0 }
        nextState := some GameState.gameOver
        despawns := [7] } :=
  player_death_gameover_amended 7 { current := -3, maximum := 100 } []
    { enemies_killed := 4, time_elapsed := 0, victory_threshold := 0 } (by norm_num)

/-- Claim C3, confirmed: re-marking an already marked entity is a no-op
(component insertion is idempotent), and a single run of `death_system`
emits at most one death event per entity: the marked-entity query yields
each entity once, and the player early-return path emits a single event. -/
theorem death_event_at_most_one :
    (∀ (s : Finset Entity) (e : Entity),
        markForDeath (markForDeath s e) e = markForDeath s e)
    ∧ ∀ (player : Option (Entity × Health)) (marked : List MarkedEntity)
        (stats : GameStats) (e : Entity),
        (marked.map MarkedEntity.entity).Nodup →
        ((deathSystem player marked stats).events.filter
          (fun ev => ev.entity == e)).length ≤ 1 := by
  constructor
  · intro s e
    simp [markForDeath]
  · intro player marked stats e hnd
    match player with
    | none =>
        simp only [deathSystem, deathMarkedLoop_eq]
        rw [filter_map_mkDeathEvent]
        exact count_entities_le_one e marked hnd
    | some (p, h) =>
        by_cases hp : h.current ≤ 0
        · simp only [deathSystem, if_pos hp]
          have := List.length_filter_le (fun ev => ev.entity == e)
            [({ entity := p, position := (0, 0), exp_value := none } : EntityDeathEvent)]
          simpa using this
        · simp only [deathSystem, if_neg hp, deathMarkedLoop_eq]
          rw [filter_map_mkDeathEvent]
          exact count_entities_le_one e marked hnd

/-- Witness for `death_event_at_most_one` on a concrete marked list. -/
theorem death_event_at_most_one_witness :
    ((deathSystem (some (0, { current := 50, maximum := 100 }))
        [{ entity := 1, transform := none, enemy := some { speed := 30, experience_value := 5 } },
         { entity := 2, transform := none, enemy := none }]
        { enemies_killed := 0, time_elapsed := 0, victory_threshold := 0 }).events.filter
      (fun ev => ev.entity == 1)).length ≤ 1 :=
  death_event_at_most_one.2 (some (0, { current := 50, maximum := 100 }))
    [{ entity := 1, transform := none, enemy := some { speed := 30, experience_value := 5 } },
     { entity := 2, transform := none, enemy := none }]
    { enemies_killed := 0, time_elapsed := 0, victory_threshold := 0 } 1 (by decide)

/-- Claim C5, counterexample: a player at 300 XP on level 1 levels up once;
afterwards current experience is 200, which is not strictly below the level-2
threshold of 125 — the claimed unconditional invariant fails on overshoot. -/
theorem xp_overflow_counterexample :
    ¬ ((checkLevelUp { current := 300, level := 1 }).1.current <
        calculateExperienceNeeded (checkLevelUp { current := 300, level := 1 }).1.level) := by
  simp [checkLevelUp, calculateExperienceNeeded_one, calculateExperienceNeeded_two]

/-- Claim C5, amended: a level-up deducts exactly the old level's threshold
(overflow banked forward, never discarded, never double-counted), and the
scenario holds: threshold(1) = 100, and 90 XP + 30 XP resolves to level 2
with exactly 20 banked XP, below the new threshold 125.  The strict
invariant current < threshold(new level) holds provided the pre-level-up
total is below threshold(old) + threshold(new); larger overshoot leaves
current ≥ threshold(new) until a later run levels up again. -/
theorem level_up_banking_amended :
    (∀ (cur lvl : ℕ), calculateExperienceNeeded lvl ≤ cur →
      checkLevelUp { current := cur, level := lvl }
          = ({ current := cur - calculateExperienceNeeded lvl, level := lvl + 1 }, true)
        ∧ (checkLevelUp { current := cur, level := lvl }).1.current
            + calculateExperienceNeeded lvl = cur
        ∧ (cur < calculateExperienceNeeded lvl + calculateExperienceNeeded (lvl + 1) →
            (checkLevelUp { current := cur, level := lvl }).1.current
              < calculateExperienceNeeded
                  (checkLevelUp { current := cur, level := lvl }).1.level))
    ∧ calculateExperienceNeeded 1 = 100
    ∧ checkLevelUp { current := 90 + 30, level := 1 } = ({ current := 20, level := 2 }, true)
    ∧ 20 < calculateExperienceNeeded 2 := by
  refine ⟨?_, calculateExperienceNeeded_one, ?_, ?_⟩
  · intro cur lvl h
    refine ⟨by simp [checkLevelUp, h], ?_, ?_⟩
    · simp [checkLevelUp, h]
      try omega
    · intro h2
      simp [checkLevelUp, h]
      omega
  · simp [checkLevelUp, calculateExperienceNeeded_one]
  · simp [calculateExperienceNeeded_two]

/-- Witness for `level_up_banking_amended` at the scenario input. -/
theorem level_up_banking_amended_witness :
    checkLevelUp { current := 120, level := 1 }
        = ({ current := 120 - calculateExperienceNeeded 1, level := 2 }, true)
      ∧ (checkLevelUp { current := 120, level := 1 }).1.current
          + calculateExperienceNeeded 1 = 120 :=
  ⟨(level_up_banking_amended.1 120 1 (by simp [calculateExperienceNeeded_one])).1,
   (level_up_banking_amended.1 120 1 (by simp [calculateExperienceNeeded_one])).2.1⟩

/-- A marked enemy entity used in the kill-counter counterexample. -/
def sampleMarkedEnemy : MarkedEntity :=
  { entity := 1, transform := none, enemy := some { speed := 30, experience_value := 5 } }

/-- Claim C10, counterexample: when the player is dead, `death_system`
returns early before the marked-entity loop, so a marked Enemy entity does
not increment the kill counter that run — the increment is not exactly the
number of marked Enemy entities on such runs. -/
theorem kill_counter_counterexample :
    (deathSystem (some (0, { current := 0, maximum := 100 })) [sampleMarkedEnemy]
      { enemies_killed := 0, time_elapsed := 0, victory_threshold := 0 }).stats.enemies_killed
    ≠ 0 + (([sampleMarkedEnemy] : List MarkedEntity).filter
            (fun m => m.enemy.isSome)).length := by
  decide

/-- Claim C10, amended: on runs where the player-death branch does not fire,
`death_system` increments the kill counter by exactly the number of marked
entities carrying an Enemy component (others leave it unchanged); on
player-death runs the stats are untouched; the counter never decreases. -/
theorem kill_counter_amended (player : Option (Entity × Health))
    (marked : List MarkedEntity) (stats : GameStats) :
    (playerDeadCheck player = false →
      (deathSystem player marked stats).stats.enemies_killed
        = stats.enemies_killed + (marked.filter (fun m => m.enemy.isSome)).length)
    ∧ (playerDeadCheck player = true →
      (deathSystem player marked stats).stats = stats)
    ∧ stats.enemies_killed ≤ (deathSystem player marked stats).stats.enemies_killed := by
  match player with
  | none =>
      refine ⟨fun _ => ?_, fun hc => by simp [playerDeadCheck] at hc, ?_⟩
      · simp [deathSystem, deathMarkedLoop_eq]
      · simp [deathSystem, deathMarkedLoop_eq]
  | some (p, h) =>
      by_cases hp : h.current ≤ 0
      · refine ⟨fun hc => ?_, fun _ => ?_, ?_⟩
        · simp [playerDeadCheck, hp] at hc
        · simp [deathSystem, hp]
        · simp [deathSystem, hp]
      · refine ⟨fun _ => ?_, fun hc => ?_, ?_⟩
        · simp [deathSystem, hp, deathMarkedLoop_eq]
        · simp [playerDeadCheck, hp] at hc
        · simp [deathSystem, hp, deathMarkedLoop_eq]

/-- Witness for `kill_counter_amended` with a live player and one marked
enemy. -/
theorem kill_counter_amended_witness :
    (deathSystem (some (0, { current := 50, maximum := 100 })) [sampleMarkedEnemy]
      { enemies_killed := 3, time_elapsed := 0, victory_threshold := 0 }).stats.enemies_killed
      = 3 + (([sampleMarkedEnemy] : List MarkedEntity).filter
              (fun m => m.enemy.isSome)).length :=
  (kill_counter_amended (some (0, { current := 50, maximum := 100 })) [sampleMarkedEnemy]
    { enemies_killed := 3, time_elapsed := 0, victory_threshold := 0 }).1 (by decide)

lemma generateGenericChoices_length : generateGenericChoices.length = 2 := rfl

/-- Claim C6, counterexample: with an empty weapon inventory and target
count 3, the generic pool holds only two entries and rand's
`choose_multiple` (here instantiated with the prefix-taking selection, which
meets its length contract) cannot return more elements than the pool has, so
only 2 choices are presented, not the target 3. -/
theorem choice_count_counterexample :
    (generateChoices (fun l n => l.take n) 3 { weapons := [] }).length ≠ 3 := by
  decide

/-- Claim C6, amended: for every selection function satisfying
`choose_multiple`'s length contract, `generate_choices` presents
`min count W + min (count − W) 2` choices, where `W` counts the weapon
upgrades generated for owned weapons whose next tier is defined and 2 is the
size of the generic pool; weapon upgrades come first with generics
backfilling the shortfall.  The presented count equals the target count
exactly when `W ≥ count` or the shortfall `count − W` is at most 2. -/
theorem upgrade_choice_count_amended
    (sel : List UpgradeChoice → ℕ → List UpgradeChoice)
    (hsel : ∀ l n, (sel l n).length = min n l.length)
    (count : ℕ) (inv : WeaponInventory) :
    ((generateChoices sel count inv).length
      = min count (generateWeaponUpgrades inv).length
        + min (count - (generateWeaponUpgrades inv).length) generateGenericChoices.length)
    ∧ ((generateWeaponUpgrades inv).length ≤ count →
        generateChoices sel count inv
          = generateWeaponUpgrades inv
              ++ sel generateGenericChoices (count - (generateWeaponUpgrades inv).length)) := by
  rcases Nat.lt_trichotomy (generateWeaponUpgrades inv).length count with hlt | heq | hgt
  · have hc : compare (generateWeaponUpgrades inv).length count = Ordering.lt :=
      Nat.compare_eq_lt.mpr hlt
    constructor
    · simp [generateChoices, hc, hsel, generateGenericChoices_length]
      omega
    · intro _
      simp [generateChoices, hc]
  · have hc : compare (generateWeaponUpgrades inv).length count = Ordering.eq :=
      Nat.compare_eq_eq.mpr heq
    constructor
    · simp [generateChoices, hc, generateGenericChoices_length]
      omega
    · intro _
      have hz : sel generateGenericChoices (count - (generateWeaponUpgrades inv).length) = [] := by
        apply List.length_eq_zero.mp
        rw [hsel]
        omega
      simp [generateChoices, hc, hz]
  · have hc : compare (generateWeaponUpgrades inv).length count = Ordering.gt :=
      Nat.compare_eq_gt.mpr hgt
    constructor
    · simp [generateChoices, hc, hsel]
      omega
    · intro hle
      omega

/-- Witness for `upgrade_choice_count_amended`: one owned level-1 weapon and
target count 3 gives 1 weapon upgrade + 2 generics = 3 choices. -/
theorem upgrade_choice_count_amended_witness :
    (generateChoices (fun l n => l.take n) 3
        { weapons := [{ weapon_type := WeaponType.magickCircle, level := 1 }] }).length
      = min 3 (generateWeaponUpgrades
          { weapons := [{ weapon_type := WeaponType.magickCircle, level := 1 }] }).length
        + min (3 - (generateWeaponUpgrades
            { weapons := [{ weapon_type := WeaponType.magickCircle, level := 1 }] }).length)
            generateGenericChoices.length :=
  (upgrade_choice_count_amended (fun l n => l.take n) (fun l n => by simp) 3
    { weapons := [{ weapon_type := WeaponType.magickCircle, level := 1 }] }).1

lemma applyDmgUpgrade_eq (b : ℤ) (lb : Bool) (w : WeaponEntry) :
    applyWeaponUpgradeToEntry
        (WeaponUpgrade.magickCircle (MagickCircleUpgrade.statUpgrade WeaponStat.damage b lb)) w
      = { w with damage := { w.damage with damage_bonus := w.damage.damage_bonus + b } } := by
  simp [applyWeaponUpgradeToEntry, flattenMagickUpgrade, applySingleMagickUpgrade]

lemma find_bump (wt : WeaponType) (l : List WeaponConfig) :
    ((bumpFirstConfig wt l).find? (fun c => c.weapon_type == wt)).isSome
      = (l.find? (fun c => c.weapon_type == wt)).isSome := by
  induction l with
  | nil => rfl
  | cons c rest ih =>
      by_cases hc : c.weapon_type = wt
      · simp [bumpFirstConfig, hc, List.find?]
      · simp [bumpFirstConfig, hc, List.find?, ih]

lemma handleWeaponUpgradeEvent_weapon (st : PlayerWeapons) (ev : UpgradeConfirmedEvent)
    (wt : WeaponType) (up : WeaponUpgrade)
    (hev : ev.upgrade.upgrade_type = UpgradeType.weapon wt up)
    (hown : (st.inventory.weapons.find? (fun c => c.weapon_type == wt)).isSome = true) :
    handleWeaponUpgradeEvent st ev
      = { st with
          inventory := { weapons := bumpFirstConfig wt st.inventory.weapons }
          weapons := st.weapons.map (fun w =>
            if w.parent = st.player then applyWeaponUpgradeToEntry up w else w) } := by
  rcases Option.isSome_iff_exists.mp hown with ⟨c, hc⟩
  simp only [handleWeaponUpgradeEvent, hev, hc, Option.isSome_some, ite_true]

/-- The starting MagickCircle weapon entity as spawned by
`spawn_magick_circle` (weapons/magick_circle.rs:47-85), parented to player 0. -/
def startingWeaponEntry : WeaponEntry :=
  { parent := 0
    circle := { patterns := [PatternType.banishment], num_sigils := 4 }
    cooldown := { timer := { duration := 7/2, elapsed := 0 }, base_duration := 7/2, cooldown_bonus := 0 }
    damage := { base_amount := 10, damage_bonus := 0 }
    area := { base_radius := 64, area_bonus := 0 } }

/-- Player 0 with the starting inventory and the starting weapon. -/
def startingPlayerWeapons : PlayerWeapons :=
  { player := 0
    inventory := { weapons := [{ weapon_type := WeaponType.magickCircle, level := 1 }] }
    weapons := [startingWeaponEntry] }

/-- A confirmed +2 damage upgrade for the MagickCircle. -/
def dmgUpgradeEvent : UpgradeConfirmedEvent :=
  { upgrade :=
    { upgrade_type := UpgradeType.weapon WeaponType.magickCircle
        (WeaponUpgrade.magickCircle (MagickCircleUpgrade.statUpgrade WeaponStat.damage 2 false))
      description := "Magick Circle Level 2, Upgrade Damage by 2"
      rarity := Rarity.common } }

/-- Claim C9, counterexample: processing the same +2 damage
upgrade-confirmed event twice leaves the weapon with damage bonus 4, not the
bonus 2 it has after a single confirmation — the second identical event is
not a no-op. -/
theorem upgrade_double_apply_counterexample :
    (handleWeaponUpgrade startingPlayerWeapons [dmgUpgradeEvent, dmgUpgradeEvent]).weapons.map
        (fun w => w.damage.damage_bonus)
      ≠ (handleWeaponUpgrade startingPlayerWeapons [dmgUpgradeEvent]).weapons.map
        (fun w => w.damage.damage_bonus) := by
  decide

/-- Claim C9, amended: upgrade confirmation is additive per event, not
idempotent: for a damage stat upgrade of `b` on an owned weapon type, one
event adds `b` to the damage bonus of every weapon parented to the player,
and processing the identical event twice adds `b + b`. -/
theorem weapon_upgrade_double_apply_amended (st : PlayerWeapons)
    (ev : UpgradeConfirmedEvent) (b : ℤ) (lb : Bool)
    (hev : ev.upgrade.upgrade_type = UpgradeType.weapon WeaponType.magickCircle
      (WeaponUpgrade.magickCircle (MagickCircleUpgrade.statUpgrade WeaponStat.damage b lb)))
    (hown : (st.inventory.weapons.find?
      (fun c => c.weapon_type == WeaponType.magickCircle)).isSome = true) :
    ((handleWeaponUpgrade st [ev]).weapons.map (fun w => w.damage.damage_bonus)
      = st.weapons.map (fun w =>
          if w.parent = st.player then w.damage.damage_bonus + b else w.damage.damage_bonus))
    ∧ ((handleWeaponUpgrade st [ev, ev]).weapons.map (fun w => w.damage.damage_bonus)
      = st.weapons.map (fun w =>
          if w.parent = st.player then w.damage.damage_bonus + (b + b)
          else w.damage.damage_bonus)) := by
  have h1 := handleWeaponUpgradeEvent_weapon st ev WeaponType.magickCircle _ hev hown
  have hown1 : ((handleWeaponUpgradeEvent st ev).inventory.weapons.find?
      (fun c => c.weapon_type == WeaponType.magickCircle)).isSome = true := by
    rw [h1]
    show ((bumpFirstConfig WeaponType.magickCircle st.inventory.weapons).find?
      (fun c => c.weapon_type == WeaponType.magickCircle)).isSome = true
    rw [find_bump]
    exact hown
  have h2 := handleWeaponUpgradeEvent_weapon (handleWeaponUpgradeEvent st ev) ev
    WeaponType.magickCircle _ hev hown1
  constructor
  · show ((handleWeaponUpgradeEvent st ev).weapons.map (fun w => w.damage.damage_bonus)) = _
    rw [h1]
    simp only [List.map_map]
    apply List.map_congr_left
    intro w _
    by_cases hw : w.parent = st.player
    · simp [hw, applyDmgUpgrade_eq]
    · simp [hw]
  · show ((handleWeaponUpgradeEvent (handleWeaponUpgradeEvent st ev) ev).weapons.map
      (fun w => w.damage.damage_bonus)) = _
    rw [h2, h1]
    simp only [List.map_map]
    apply List.map_congr_left
    intro w _
    by_cases hw : w.parent = st.player
    · simp [hw, applyDmgUpgrade_eq]
      omega
    · simp [hw, applyDmgUpgrade_eq]

/-- Witness for `weapon_upgrade_double_apply_amended` on the starting
weapon state. -/
theorem weapon_upgrade_double_apply_amended_witness :
    (handleWeaponUpgrade startingPlayerWeapons [dmgUpgradeEvent]).weapons.map
        (fun w => w.damage.damage_bonus)
      = startingPlayerWeapons.weapons.map (fun w =>
          if w.parent = startingPlayerWeapons.player then w.damage.damage_bonus + 2
          else w.damage.damage_bonus) :=
  (weapon_upgrade_double_apply_amended startingPlayerWeapons dmgUpgradeEvent 2 false
    rfl (by decide)).1

lemma percent_cast (b : ℤ) : ((100 + b : ℤ) : ℚ) / 100 = 1 + (b : ℚ) / 100 := by
  push_cast
  ring

lemma effectiveCooldown_spec (cd : WeaponCooldown) (cr : ℚ) :
    effectiveCooldown cd cr = specEffectiveCooldown cd.base_duration cd.cooldown_bonus cr := by
  rw [effectiveCooldown, specEffectiveCooldown, percent_cast]

lemma effectiveDamage_spec (dmg : WeaponDamage) (dm : ℚ) :
    effectiveDamage dmg dm
      = Int.floor (specEffectiveDamage dmg.base_amount dmg.damage_bonus dm) := by
  rw [effectiveDamage, specEffectiveDamage, percent_cast]

lemma effectiveRadius_spec (area : WeaponArea) (am : ℚ) :
    effectiveRadius area am = specEffectiveArea area.base_radius area.area_bonus am := by
  rw [effectiveRadius, specEffectiveArea, percent_cast]

lemma spawnMagickCircleAttacks_length (d : ℤ) (r : ℚ) (c : MagickCircle)
    (h : c.patterns ≠ []) :
    (spawnMagickCircleAttacks d r c).length = c.patterns.length := by
  cases hp : c.patterns with
  | nil => exact absurd hp h
  | cons p0 rest => simp [spawnMagickCircleAttacks, hp]

lemma spawnMagickCircleAttacks_mem (d : ℤ) (r : ℚ) (c : MagickCircle)
    (a : SpawnedAttack) (ha : a ∈ spawnMagickCircleAttacks d r c) :
    a.damage = d ∧ a.radius = r := by
  cases hp : c.patterns with
  | nil =>
      rw [spawnMagickCircleAttacks, hp] at ha
      simp at ha
  | cons p0 rest =>
      rw [spawnMagickCircleAttacks, hp] at ha
      rcases List.mem_cons.mp ha with h1 | h2
      · subst h1; exact ⟨rfl, rfl⟩
      · rcases List.mem_map.mp h2 with ⟨ip, _, hf⟩
        subst hf
        exact ⟨rfl, rfl⟩

/-- A weapon cooldown whose timer is about to elapse. -/
def fireCooldown : WeaponCooldown :=
  { timer := { duration := 1, elapsed := 0 }, base_duration := 1, cooldown_bonus := 0 }

/-- Base damage 10 with a +3% damage bonus. -/
def fireDamage : WeaponDamage := { base_amount := 10, damage_bonus := 3 }

def fireArea : WeaponArea := { base_radius := 64, area_bonus := 0 }

def fireCircle : MagickCircle := { patterns := [PatternType.banishment], num_sigils := 4 }

/-- Claim C7, counterexample: with base damage 10, a +3% damage bonus and
damage multiplier 1, the spawned attack carries integer damage 10, while the
claimed formula base × (1 + bonus%) × multiplier gives 103/10 = 10.3 — the
code floors the product to an integer, so the claimed equality fails. -/
theorem firing_damage_formula_counterexample :
    ((weaponFiringStep 0 1 1 fireCooldown fireDamage fireArea fireCircle 2).2.map
        (fun a => (a.damage : ℚ))) = [10]
    ∧ specEffectiveDamage fireDamage.base_amount fireDamage.damage_bonus 1 ≠ (10 : ℚ) := by
  constructor
  · norm_num [weaponFiringStep, effectiveCooldown, effectiveDamage, effectiveRadius,
      WTimer.setDuration, WTimer.tick, WTimer.justFinished, spawnMagickCircleAttacks,
      fireCooldown, fireDamage, fireArea, fireCircle]
  · norm_num [specEffectiveDamage, fireDamage]

/-- Claim C7, amended: the firing system sets the timer duration to exactly
base_duration × (1 + cooldown_bonus%) × (1 − player_cooldown_reduction);
when the cooldown has not elapsed nothing spawns; when it elapses one attack
per owned pattern spawns, each carrying effective damage
⌊base_damage × (1 + damage_bonus%) × player_damage_multiplier⌋ (floored to
an integer) and effective area
base_radius × (1 + area_bonus%) × player_area_multiplier. -/
theorem weapon_firing_formulas_amended (cr dm am : ℚ) (cd : WeaponCooldown)
    (dmg : WeaponDamage) (area : WeaponArea) (circle : MagickCircle) (delta : ℚ)
    (hpat : circle.patterns ≠ []) :
    ((weaponFiringStep cr dm am cd dmg area circle delta).1.timer.duration
        = specEffectiveCooldown cd.base_duration cd.cooldown_bonus cr)
    ∧ ((weaponFiringStep cr dm am cd dmg area circle delta).1.timer.justFinished = false →
        (weaponFiringStep cr dm am cd dmg area circle delta).2 = [])
    ∧ ((weaponFiringStep cr dm am cd dmg area circle delta).1.timer.justFinished = true →
        (weaponFiringStep cr dm am cd dmg area circle delta).2.length
          = circle.patterns.length)
    ∧ ∀ a ∈ (weaponFiringStep cr dm am cd dmg area circle delta).2,
        a.damage = Int.floor (specEffectiveDamage dmg.base_amount dmg.damage_bonus dm)
        ∧ a.radius = specEffectiveArea area.base_radius area.area_bonus am := by
  have htimer : (weaponFiringStep cr dm am cd dmg area circle delta).1.timer
      = (cd.timer.setDuration (effectiveCooldown cd cr)).tick delta := by
    rw [weaponFiringStep]
    split
    · rfl
    · rfl
  refine ⟨?_, ?_, ?_, ?_⟩
  · rw [htimer]
    simp [WTimer.setDuration, WTimer.tick, effectiveCooldown_spec]
  · intro hnf
    rw [htimer] at hnf
    rw [weaponFiringStep]
    split
    · rename_i hj
      rw [hj] at hnf
      cases hnf
    · rfl
  · intro hyes
    rw [htimer] at hyes
    rw [weaponFiringStep]
    split
    · exact spawnMagickCircleAttacks_length _ _ _ hpat
    · rename_i hj
      rw [hyes] at hj
      cases hj rfl
  · intro a ha
    rw [weaponFiringStep] at ha
    revert ha
    split
    · intro ha
      have := spawnMagickCircleAttacks_mem _ _ _ a ha
      rw [effectiveDamage_spec] at this
      rw [effectiveRadius_spec] at this
      exact this
    · intro ha
      cases ha

/-- Witness for `weapon_firing_formulas_amended` on an elapsed cooldown. -/
theorem weapon_firing_formulas_amended_witness :
    (weaponFiringStep 0 1 1 fireCooldown fireDamage fireArea fireCircle 2).2.length
      = fireCircle.patterns.length :=
  (weapon_firing_formulas_amended 0 1 1 fireCooldown fireDamage fireArea fireCircle 2
    (by decide)).2.2.1
    (by norm_num [weaponFiringStep, effectiveCooldown, WTimer.setDuration, WTimer.tick,
      WTimer.justFinished, fireCooldown])

lemma checkEnemiesForHit_some (pe : Entity) (cur next : Vec2) (pr : ℚ)
    (l : List EnemyBody) (ev : CollisionEvent)
    (h : checkEnemiesForHit pe cur next pr l = some ev) :
    ∃ en ∈ l, ev = { entity_a := pe, entity_b := en.entity
                     collision_type := CollisionType.projectileEnemy }
      ∧ (circleHit cur en.pos (pr + en.radius) = true
         ∨ segHit cur next en.pos (pr + en.radius) = true) := by
  induction l with
  | nil => cases h
  | cons en rest ih =>
      rw [checkEnemiesForHit] at h
      by_cases hc : circleHit cur en.pos (pr + en.radius) = true
      · rw [if_pos hc] at h
        exact ⟨en, List.mem_cons_self _ _, (Option.some_injective _ h).symm, Or.inl hc⟩
      · rw [if_neg hc] at h
        by_cases hs : segHit cur next en.pos (pr + en.radius) = true
        · rw [if_pos hs] at h
          exact ⟨en, List.mem_cons_self _ _, (Option.some_injective _ h).symm, Or.inr hs⟩
        · rw [if_neg hs] at h
          rcases ih h with ⟨en2, hmem, hev, hhit⟩
          exact ⟨en2, List.mem_cons_of_mem _ hmem, hev, hhit⟩

lemma checkEnemiesForHit_none (pe : Entity) (cur next : Vec2) (pr : ℚ)
    (l : List EnemyBody) :
    checkEnemiesForHit pe cur next pr l = none ↔
      ∀ en ∈ l, circleHit cur en.pos (pr + en.radius) = false
        ∧ segHit cur next en.pos (pr + en.radius) = false := by
  induction l with
  | nil => simp [checkEnemiesForHit]
  | cons en rest ih =>
      rw [checkEnemiesForHit]
      by_cases hc : circleHit cur en.pos (pr + en.radius) = true
      · simp [hc]
      · rw [if_neg hc]
        by_cases hs : segHit cur next en.pos (pr + en.radius) = true
        · simp [hs, hc]
        · rw [if_neg hs]
          simp only [Bool.not_eq_true] at hc hs
          simp [ih, hc, hs]

lemma runSubsteps_some (pe : Entity) (pr : ℚ) (enemies : List EnemyBody)
    (sv : Vec2) (ev : CollisionEvent) :
    ∀ (n : ℕ) (cur : Vec2), runSubsteps pe pr enemies sv cur n = some ev →
    ∃ j < n, checkEnemiesForHit pe (cur + (j : ℚ) • sv) (cur + ((j : ℚ) + 1) • sv)
        pr enemies = some ev := by
  intro n
  induction n with
  | zero => intro cur h; cases h
  | succ m ih =>
      intro cur h
      rw [runSubsteps] at h
      cases hch : checkEnemiesForHit pe cur (cur + sv) pr enemies with
      | some ev2 =>
          rw [hch] at h
          refine ⟨0, Nat.succ_pos m, ?_⟩
          have h02 : ev2 = ev := Option.some_injective _ h
          subst h02
          simpa using hch
      | none =>
          rw [hch] at h
          rcases ih (cur + sv) h with ⟨j, hj, hcheck⟩
          refine ⟨j + 1, Nat.succ_lt_succ hj, ?_⟩
          have e1 : cur + sv + (j : ℚ) • sv = cur + ((j : ℚ) + 1) • sv := by
            rw [add_smul, one_smul]
            abel
          have e2 : cur + sv + ((j : ℚ) + 1) • sv = cur + (((j : ℚ) + 1) + 1) • sv := by
            rw [add_smul ((j : ℚ) + 1) 1, one_smul]
            abel
          rw [e1, e2] at hcheck
          have hcast : ((j : ℚ) + 1) = ((j + 1 : ℕ) : ℚ) := by push_cast; ring
          rw [hcast] at hcheck
          exact hcheck

lemma runSubsteps_none (pe : Entity) (pr : ℚ) (enemies : List EnemyBody)
    (sv : Vec2) :
    ∀ (n : ℕ) (cur : Vec2), runSubsteps pe pr enemies sv cur n = none ↔
      ∀ j < n, checkEnemiesForHit pe (cur + (j : ℚ) • sv) (cur + ((j : ℚ) + 1) • sv)
        pr enemies = none := by
  intro n
  induction n with
  | zero => intro cur; simp [runSubsteps]
  | succ m ih =>
      intro cur
      rw [runSubsteps]
      cases hch : checkEnemiesForHit pe cur (cur + sv) pr enemies with
      | some ev2 =>
          simp only [iff_false]
          constructor
          · intro h; cases h
          · intro hall
            exfalso
            have h0 := hall 0 (Nat.succ_pos m)
            simp at h0
            rw [h0] at hch
            cases hch
      | none =>
          rw [ih (cur + sv)]
          constructor
          · intro hall j hj
            cases j with
            | zero => simpa using hch
            | succ i =>
                have := hall i (Nat.lt_of_succ_lt_succ hj)
                have e1 : cur + sv + (i : ℚ) • sv = cur + ((i : ℚ) + 1) • sv := by
                  rw [add_smul, one_smul]; abel
                have e2 : cur + sv + ((i : ℚ) + 1) • sv = cur + (((i : ℚ) + 1) + 1) • sv := by
                  rw [add_smul ((i : ℚ) + 1) 1, one_smul]; abel
                rw [e1, e2] at this
                have hcast : ((i : ℚ) + 1) = ((i + 1 : ℕ) : ℚ) := by push_cast; ring
                rw [hcast] at this
                exact this
          · intro hall j hj
            have := hall (j + 1) (Nat.succ_lt_succ hj)
            have hcast : ((j + 1 : ℕ) : ℚ) = ((j : ℚ) + 1) := by push_cast; ring
            rw [hcast] at this
            have e1 : cur + sv + (j : ℚ) • sv = cur + ((j : ℚ) + 1) • sv := by
              rw [add_smul, one_smul]; abel
            have e2 : cur + sv + ((j : ℚ) + 1) • sv = cur + (((j : ℚ) + 1) + 1) • sv := by
              rw [add_smul ((j : ℚ) + 1) 1, one_smul]; abel
            rw [e1, e2]
            exact this



lemma projectilePhysicsSystem_length (enemies : List EnemyBody) (dt : ℚ)
    (projs : List ProjBody) :
    (projectilePhysicsSystem enemies dt projs).length ≤ 1 := by
  induction projs with
  | nil => simp [projectilePhysicsSystem]
  | cons p rest ih =>
      rw [projectilePhysicsSystem]
      cases hr : runSubsteps p.entity p.radius enemies (stepVelocity p dt) p.pos
          collisionSubsteps with
      | some ev => simp
      | none => simpa using ih

lemma projectilePhysicsSystem_mem (enemies : List EnemyBody) (dt : ℚ)
    (projs : List ProjBody) (ev : CollisionEvent)
    (h : ev ∈ projectilePhysicsSystem enemies dt projs) :
    ∃ p ∈ projs, runSubsteps p.entity p.radius enemies (stepVelocity p dt) p.pos
      collisionSubsteps = some ev := by
  induction projs with
  | nil => cases h
  | cons p rest ih =>
      rw [projectilePhysicsSystem] at h
      cases hr : runSubsteps p.entity p.radius enemies (stepVelocity p dt) p.pos
          collisionSubsteps with
      | some ev2 =>
          rw [hr] at h
          rcases List.mem_singleton.mp h with h1
          subst h1
          exact ⟨p, List.mem_cons_self _ _, hr⟩
      | none =>
          rw [hr] at h
          rcases ih h with ⟨p2, hmem, hrun⟩
          exact ⟨p2, List.mem_cons_of_mem _ hmem, hrun⟩

lemma projectilePhysicsSystem_nil (enemies : List EnemyBody) (dt : ℚ)
    (projs : List ProjBody) :
    projectilePhysicsSystem enemies dt projs = [] ↔
      ∀ p ∈ projs, runSubsteps p.entity p.radius enemies (stepVelocity p dt) p.pos
        collisionSubsteps = none := by
  induction projs with
  | nil => simp [projectilePhysicsSystem]
  | cons p rest ih =>
      rw [projectilePhysicsSystem]
      cases hr : runSubsteps p.entity p.radius enemies (stepVelocity p dt) p.pos
          collisionSubsteps with
      | some ev => simp [hr]
      | none => simp [hr, ih]

lemma substep_next (p : ProjBody) (dt : ℚ) (j : ℕ) :
    p.pos + ((j : ℚ) + 1) • stepVelocity p dt = substepPos p dt (j + 1) := by
  rw [substepPos]
  push_cast
  ring_nf

/-- Claim C8, confirmed: the continuous sub-stepped projectile pass reports
at most one collision per projectile per tick (the first hit exits the
remaining sub-steps); every reported collision is a ProjectileEnemy pair
arising from some sub-step at which either the point-in-circle test at the
sub-step position or the closest-point-on-segment test against the swept
path fired; and no collision is reported exactly when both tests miss for
every projectile, sub-step and enemy. -/
theorem projectile_single_hit (enemies : List EnemyBody) (dt : ℚ) (projs : List ProjBody) :
    (∀ pid : Entity, ((projectilePhysicsSystem enemies dt projs).filter
        (fun ev => ev.entity_a == pid)).length ≤ 1)
    ∧ (∀ ev ∈ projectilePhysicsSystem enemies dt projs,
        ev.collision_type = CollisionType.projectileEnemy
        ∧ ∃ p ∈ projs, ev.entity_a = p.entity
          ∧ ∃ k < collisionSubsteps, ∃ en ∈ enemies, ev.entity_b = en.entity
            ∧ (circleHit (substepPos p dt k) en.pos (p.radius + en.radius) = true
               ∨ segHit (substepPos p dt k) (substepPos p dt (k + 1)) en.pos
                   (p.radius + en.radius) = true))
    ∧ (projectilePhysicsSystem enemies dt projs = [] ↔
        ∀ p ∈ projs, ∀ k < collisionSubsteps, ∀ en ∈ enemies,
          circleHit (substepPos p dt k) en.pos (p.radius + en.radius) = false
          ∧ segHit (substepPos p dt k) (substepPos p dt (k + 1)) en.pos
              (p.radius + en.radius) = false) := by
  refine ⟨?_, ?_, ?_⟩
  · intro pid
    calc ((projectilePhysicsSystem enemies dt projs).filter
        (fun ev => ev.entity_a == pid)).length
        ≤ (projectilePhysicsSystem enemies dt projs).length :=
          List.length_filter_le _ _
      _ ≤ 1 := projectilePhysicsSystem_length enemies dt projs
  · intro ev hev
    rcases projectilePhysicsSystem_mem enemies dt projs ev hev with ⟨p, hpmem, hrun⟩
    rcases runSubsteps_some p.entity p.radius enemies (stepVelocity p dt) ev
        collisionSubsteps p.pos hrun with ⟨j, hj, hcheck⟩
    rcases checkEnemiesForHit_some _ _ _ _ _ _ hcheck with ⟨en, henmem, hevq, hhit⟩
    subst hevq
    refine ⟨rfl, p, hpmem, rfl, j, hj, en, henmem, rfl, ?_⟩
    rw [substep_next] at hhit
    exact hhit
  · rw [projectilePhysicsSystem_nil]
    constructor
    · intro hall p hp k hk en hen
      have hnone := (runSubsteps_none p.entity p.radius enemies (stepVelocity p dt)
        collisionSubsteps p.pos).mp (hall p hp) k hk
      rw [substep_next] at hnone
      exact (checkEnemiesForHit_none _ _ _ _ _).mp hnone en hen
    · intro hall p hp
      rw [runSubsteps_none]
      intro j hj
      rw [checkEnemiesForHit_none]
      intro en hen
      have hres := hall p hp j hj en hen
      rw [substep_next]
      exact hres

/-- A projectile used by the C8 witness. -/
def loneProjectile : ProjBody :=
  { entity := 1, pos := (0, 0), right := (1, 0), radius := 8, speed := 300 }

/-- Witness for `projectile_single_hit`: no enemies, so both tests miss at
every sub-step and the system reports nothing; the per-projectile bound
holds. -/
theorem projectile_single_hit_witness :
    ((projectilePhysicsSystem [] 1 [loneProjectile]).filter
        (fun ev => ev.entity_a == 5)).length ≤ 1
    ∧ projectilePhysicsSystem [] 1 [loneProjectile] = [] :=
  ⟨(projectile_single_hit [] 1 [loneProjectile]).1 5,
   (projectile_single_hit [] 1 [loneProjectile]).2.2.mpr (by simp)⟩

lemma applyDamageToHealth_frame (st : HandleState) (ev : DamageEvent) :
    (applyDamageToHealth st ev).1.lastDamage = st.lastDamage
    ∧ ∀ x ∈ (applyDamageToHealth st ev).2, ∃ e0, x = DamageCmd.insertMarked e0 := by
  cases hh : st.health ev.target with
  | none => simp [applyDamageToHealth, hh]
  | some h =>
      constructor
      · simp [applyDamageToHealth, hh]
      · intro x hx
        simp only [applyDamageToHealth, hh] at hx
        by_cases hc : h.current - ev.amount ≤ 0
        · simp [hc] at hx
          exact ⟨ev.target, hx⟩
        · simp [hc] at hx

lemma handleDamageEvent_tracked (now : ℚ) (st : HandleState) (ev : DamageEvent)
    (e : Entity) (t c : ℚ)
    (h : st.lastDamage e = some { time := t, cooldown := c }) :
    ∃ t', (handleDamageEvent now st ev).1.lastDamage e = some { time := t', cooldown := c }
    ∧ (∀ x ∈ (handleDamageEvent now st ev).2.1, x ≠ DamageCmd.insertDefaultLDT e)
    ∧ (¬ (ev.target = e ∧ (handleDamageEvent now st ev).2.2 = true) → t' = t)
    ∧ ((ev.target = e ∧ (handleDamageEvent now st ev).2.2 = true) → t + c ≤ now ∧ t' = now) := by
  by_cases hte : ev.target = e
  · by_cases hdrop : now - t < c
    · have hred : handleDamageEvent now st ev = (st, [], false) := by
        rw [handleDamageEvent, hte, h]
        simp [hdrop]
      refine ⟨t, ?_, ?_, ?_, ?_⟩
      · rw [hred]; exact h
      · rw [hred]; simp
      · intro _; rfl
      · rw [hred]
        intro hacc
        exact absurd hacc.2 (by simp)
    · have hred : handleDamageEvent now st ev
          = ((applyDamageToHealth
              { st with lastDamage := fun x =>
                  if x = e then some { time := now, cooldown := c } else st.lastDamage x } ev).1,
             (applyDamageToHealth
              { st with lastDamage := fun x =>
                  if x = e then some { time := now, cooldown := c } else st.lastDamage x } ev).2,
             true) := by
        rw [handleDamageEvent, hte, h]
        simp [hdrop]
      obtain ⟨hld, hcm⟩ := applyDamageToHealth_frame
        { st with lastDamage := fun x =>
            if x = e then some { time := now, cooldown := c } else st.lastDamage x } ev
      refine ⟨now, ?_, ?_, ?_, ?_⟩
      · rw [hred]
        show (applyDamageToHealth _ ev).1.lastDamage e = _
        rw [hld]
        simp
      · rw [hred]
        intro x hx
        rcases hcm x hx with ⟨e0, he0⟩
        simp [he0]
      · rw [hred]
        intro hno
        exact absurd ⟨hte, rfl⟩ hno
      · intro _
        exact ⟨by linarith [not_lt.mp hdrop], rfl⟩
  · cases hlt : st.lastDamage ev.target with
    | some ld =>
        by_cases hdrop : now - ld.time < ld.cooldown
        · have hred : handleDamageEvent now st ev = (st, [], false) := by
            rw [handleDamageEvent, hlt]
            simp [hdrop]
          refine ⟨t, ?_, ?_, ?_, ?_⟩
          · rw [hred]; exact h
          · rw [hred]; simp
          · intro _; rfl
          · intro hacc
            exact absurd hacc.1 hte
        · have hred : handleDamageEvent now st ev
              = ((applyDamageToHealth
                  { st with lastDamage := fun x =>
                      if x = ev.target then some { ld with time := now } else st.lastDamage x } ev).1,
                 (applyDamageToHealth
                  { st with lastDamage := fun x =>
                      if x = ev.target then some { ld with time := now } else st.lastDamage x } ev).2,
                 true) := by
            rw [handleDamageEvent, hlt]
            simp [hdrop]
          obtain ⟨hld2, hcm⟩ := applyDamageToHealth_frame
            { st with lastDamage := fun x =>
                if x = ev.target then some { ld with time := now } else st.lastDamage x } ev
          refine ⟨t, ?_, ?_, ?_, ?_⟩
          · rw [hred]
            show (applyDamageToHealth _ ev).1.lastDamage e = _
            rw [hld2]
            have hne : e ≠ ev.target := fun hx => hte hx.symm
            simp [hne, h]
          · rw [hred]
            intro x hx
            rcases hcm x hx with ⟨e0, he0⟩
            simp [he0]
          · intro _; rfl
          · intro hacc
            exact absurd hacc.1 hte
    | none =>
        have hred : handleDamageEvent now st ev
            = ((applyDamageToHealth st ev).1,
               DamageCmd.insertDefaultLDT ev.target :: (applyDamageToHealth st ev).2,
               true) := by
          rw [handleDamageEvent, hlt]
        obtain ⟨hld2, hcm⟩ := applyDamageToHealth_frame st ev
        refine ⟨t, ?_, ?_, ?_, ?_⟩
        · rw [hred]
          show (applyDamageToHealth st ev).1.lastDamage e = _
          rw [hld2]
          exact h
        · rw [hred]
          intro x hx
          rcases List.mem_cons.mp hx with h1 | h2
          · subst h1
            intro hbad
            cases hbad
            exact hte rfl
          · rcases hcm x h2 with ⟨e0, he0⟩
            simp [he0]
        · intro _; rfl
        · intro hacc
          exact absurd hacc.1 hte



/-- Consecutive-gap chain: starting from timestamp `t`, each accepted time
is at least `c` after the previous one. -/
def gapChain (c t : ℚ) (ts : List ℚ) : Prop :=
  List.Chain' (fun a b => a + c ≤ b) (t :: ts)

lemma gapChain_nil (c t : ℚ) : gapChain c t [] := by
  simp [gapChain]

lemma gapChain_cons (c t x : ℚ) (ts : List ℚ) (h1 : t + c ≤ x)
    (h2 : gapChain c x ts) : gapChain c t (x :: ts) := by
  rw [gapChain, List.chain'_cons]
  exact ⟨h1, h2⟩

lemma getLastD_append (xs ys : List ℚ) (d : ℚ) :
    (xs ++ ys).getLastD d = ys.getLastD (xs.getLastD d) := by
  induction xs generalizing d with
  | nil => rfl
  | cons x xs ih =>
      rw [List.cons_append, List.getLastD_cons, List.getLastD_cons, ih]

lemma gapChain_append (c : ℚ) (xs : List ℚ) : ∀ (t : ℚ) (ys : List ℚ),
    gapChain c t xs → gapChain c (xs.getLastD t) ys → gapChain c t (xs ++ ys) := by
  induction xs with
  | nil => intro t ys h1 h2; exact h2
  | cons x xs ih =>
      intro t ys h1 h2
      rw [gapChain, List.chain'_cons] at h1
      rw [List.getLastD_cons] at h2
      rw [List.cons_append]
      exact gapChain_cons c t x (xs ++ ys) h1.1 (ih x ys h1.2 h2)

lemma handleDamageEvents_tracked (e : Entity) (c : ℚ) (now : ℚ) :
    ∀ (evs : List DamageEvent) (st : HandleState) (t : ℚ),
    st.lastDamage e = some { time := t, cooldown := c } →
    ∃ t', (handleDamageEvents now st evs).1.lastDamage e
            = some { time := t', cooldown := c }
      ∧ (∀ x ∈ (handleDamageEvents now st evs).2.1, x ≠ DamageCmd.insertDefaultLDT e)
      ∧ gapChain c t
          ((((handleDamageEvents now st evs).2.2).filter (fun p => p.1 = e)).map Prod.snd)
      ∧ t' = ((((handleDamageEvents now st evs).2.2).filter
          (fun p => p.1 = e)).map Prod.snd).getLastD t := by
  intro evs
  induction evs with
  | nil =>
      intro st t h
      exact ⟨t, h, by simp [handleDamageEvents], gapChain_nil c t, by simp [handleDamageEvents]⟩
  | cons ev rest ih =>
      intro st t h
      have hrw : handleDamageEvents now st (ev :: rest)
          = ((handleDamageEvents now (handleDamageEvent now st ev).1 rest).1,
             (handleDamageEvent now st ev).2.1
               ++ (handleDamageEvents now (handleDamageEvent now st ev).1 rest).2.1,
             (if (handleDamageEvent now st ev).2.2 then [(ev.target, now)] else [])
               ++ (handleDamageEvents now (handleDamageEvent now st ev).1 rest).2.2) := by
        simp [handleDamageEvents]
      rcases handleDamageEvent_tracked now st ev e t c h with ⟨t1, h1, hcmd1, hmiss, hhit⟩
      by_cases hacc : ev.target = e ∧ (handleDamageEvent now st ev).2.2 = true
      · obtain ⟨hgap, ht1⟩ := hhit hacc
        rw [ht1] at h1
        rcases ih (handleDamageEvent now st ev).1 now h1 with ⟨t2, h2, hcmd2, hchain2, ht2⟩
        refine ⟨t2, ?_, ?_, ?_, ?_⟩
        · rw [hrw]; exact h2
        · rw [hrw]
          intro x hx
          rcases List.mem_append.mp hx with hx1 | hx2
          · exact hcmd1 x hx1
          · exact hcmd2 x hx2
        · rw [hrw]
          simp only [hacc.2, if_true, hacc.1, List.filter_append, List.map_append]
          have hfe : (([(e, now)] : List (Entity × ℚ)).filter (fun p => p.1 = e)) = [(e, now)] := by
            simp
          rw [hfe]
          simp only [List.map_cons, List.map_nil, List.cons_append, List.nil_append]
          exact gapChain_cons c t now _ hgap hchain2
        · rw [hrw]
          simp only [hacc.2, if_true, hacc.1, List.filter_append, List.map_append]
          have hfe : (([(e, now)] : List (Entity × ℚ)).filter (fun p => p.1 = e)) = [(e, now)] := by
            simp
          rw [hfe]
          simp only [List.map_cons, List.map_nil, List.cons_append, List.nil_append,
            List.getLastD_cons]
          exact ht2
      · have ht1 : t1 = t := hmiss hacc
        subst ht1
        rcases ih (handleDamageEvent now st ev).1 t1 h1 with ⟨t2, h2, hcmd2, hchain2, ht2⟩
        have hfe : ((if (handleDamageEvent now st ev).2.2 then [(ev.target, now)] else []).filter
            (fun p => p.1 = e)) = [] := by
          cases hb : (handleDamageEvent now st ev).2.2 with
          | false => simp
          | true =>
              have hne : ev.target ≠ e := fun hq => hacc ⟨hq, hb⟩
              simp [hne]
        refine ⟨t2, ?_, ?_, ?_, ?_⟩
        · rw [hrw]; exact h2
        · rw [hrw]
          intro x hx
          rcases List.mem_append.mp hx with hx1 | hx2
          · exact hcmd1 x hx1
          · exact hcmd2 x hx2
        · rw [hrw]
          simp only [List.filter_append, hfe, List.nil_append]
          exact hchain2
        · rw [hrw]
          simp only [List.filter_append, hfe, List.nil_append]
          exact ht2



lemma applyDamageCmds_lastDamage (cmds : List DamageCmd) : ∀ (st : HandleState) (e : Entity),
    (∀ x ∈ cmds, x ≠ DamageCmd.insertDefaultLDT e) →
    (applyDamageCmds st cmds).lastDamage e = st.lastDamage e := by
  induction cmds with
  | nil => intro st e _; rfl
  | cons cmd rest ih =>
      intro st e hno
      have hrw : applyDamageCmds st (cmd :: rest) = applyDamageCmds (applyDamageCmd st cmd) rest := rfl
      rw [hrw, ih _ e (fun x hx => hno x (List.mem_cons_of_mem _ hx))]
      cases cmd with
      | insertMarked e0 => rfl
      | insertDefaultLDT e0 =>
          have : e ≠ e0 := by
            intro hq
            exact (hno _ (List.mem_cons_self _ _)) (by rw [hq])
          simp [applyDamageCmd, this]

lemma handleDamageRun_tracked (e : Entity) (c : ℚ) (now : ℚ)
    (evs : List DamageEvent) (st : HandleState) (t : ℚ)
    (h : st.lastDamage e = some { time := t, cooldown := c }) :
    ∃ t', (handleDamageRun now st evs).1.lastDamage e = some { time := t', cooldown := c }
      ∧ gapChain c t
          ((((handleDamageRun now st evs).2).filter (fun p => p.1 = e)).map Prod.snd)
      ∧ t' = ((((handleDamageRun now st evs).2).filter
          (fun p => p.1 = e)).map Prod.snd).getLastD t := by
  rcases handleDamageEvents_tracked e c now evs st t h with ⟨t', h1, hcmd, hchain, hlast⟩
  have hrw : handleDamageRun now st evs
      = (applyDamageCmds (handleDamageEvents now st evs).1 (handleDamageEvents now st evs).2.1,
         (handleDamageEvents now st evs).2.2) := by
    simp [handleDamageRun]
  refine ⟨t', ?_, ?_, ?_⟩
  · rw [hrw]
    show (applyDamageCmds _ _).lastDamage e = _
    rw [applyDamageCmds_lastDamage _ _ e hcmd]
    exact h1
  · rw [hrw]
    exact hchain
  · rw [hrw]
    exact hlast

lemma handleDamageTrace_tracked (e : Entity) (c : ℚ) :
    ∀ (trace : List (ℚ × List DamageEvent)) (st : HandleState) (t : ℚ),
    st.lastDamage e = some { time := t, cooldown := c } →
    ∃ t', (handleDamageTrace st trace).1.lastDamage e = some { time := t', cooldown := c }
      ∧ gapChain c t
          ((((handleDamageTrace st trace).2).filter (fun p => p.1 = e)).map Prod.snd)
      ∧ t' = ((((handleDamageTrace st trace).2).filter
          (fun p => p.1 = e)).map Prod.snd).getLastD t := by
  intro trace
  induction trace with
  | nil =>
      intro st t h
      exact ⟨t, h, gapChain_nil c t, by simp [handleDamageTrace]⟩
  | cons run rest ih =>
      intro st t h
      obtain ⟨now, evs⟩ := run
      have hrw : handleDamageTrace st ((now, evs) :: rest)
          = ((handleDamageTrace (handleDamageRun now st evs).1 rest).1,
             (handleDamageRun now st evs).2
               ++ (handleDamageTrace (handleDamageRun now st evs).1 rest).2) := by
        simp [handleDamageTrace]
      rcases handleDamageRun_tracked e c now evs st t h with ⟨t1, h1, hchain1, hlast1⟩
      rcases ih (handleDamageRun now st evs).1 t1 h1 with ⟨t2, h2, hchain2, hlast2⟩
      refine ⟨t2, ?_, ?_, ?_⟩
      · rw [hrw]; exact h2
      · rw [hrw, List.filter_append, List.map_append]
        apply gapChain_append c _ t _ hchain1
        rw [← hlast1]
        exact hchain2
      · rw [hrw, List.filter_append, List.map_append, getLastD_append, ← hlast1]
        exact hlast2



def cooldownState : HandleState :=
  { lastDamage := fun e => if e = 1 then some { time := 0, cooldown := 1/4 } else none
    health := fun e => if e = 1 then some { current := 10, maximum := 10 } else none
    marked := fun _ => false }

def cooldownEvent : DamageEvent := { target := 1, amount := 3, source := none }

/-- Claim C4, confirmed: if the target carries a LastDamageTime component
and now minus its last-damage timestamp is below its cooldown interval, the
hit is dropped with the whole state unchanged (not queued, not retried); a
target without the component takes the damage unconditionally; and along any
multi-run trace, the accepted damage applications to a component-bearing
target are never closer together than its cooldown interval (consecutive
accepted timestamps differ by at least the cooldown). -/
theorem damage_cooldown_respect :
    (∀ (now : ℚ) (st : HandleState) (ev : DamageEvent) (ld : LastDamageTime),
       st.lastDamage ev.target = some ld → now - ld.time < ld.cooldown →
       handleDamageEvent now st ev = (st, [], false))
    ∧ (∀ (now : ℚ) (st : HandleState) (ev : DamageEvent) (h : Health),
       st.lastDamage ev.target = none → st.health ev.target = some h →
       (handleDamageEvent now st ev).2.2 = true
       ∧ (handleDamageEvent now st ev).1.health ev.target
           = some { h with current := h.current - ev.amount })
    ∧ (∀ (st : HandleState) (trace : List (ℚ × List DamageEvent)) (e : Entity) (t c : ℚ),
       st.lastDamage e = some { time := t, cooldown := c } →
       List.Chain' (fun a b => a + c ≤ b) (acceptedTimes e st trace)) := by
  refine ⟨?_, ?_, ?_⟩
  · intro now st ev ld hld hdrop
    rw [handleDamageEvent, hld]
    simp [hdrop]
  · intro now st ev h hnone hh
    constructor
    · rw [handleDamageEvent, hnone]
    · rw [handleDamageEvent, hnone]
      show (applyDamageToHealth st ev).1.health ev.target = _
      simp [applyDamageToHealth, hh]
  · intro st trace e t c h
    rcases handleDamageTrace_tracked e c trace st t h with ⟨t', _, hchain, _⟩
    rw [acceptedTimes]
    exact hchain.tail

/-- Witness for `damage_cooldown_respect`: a hit 1/8s after the last damage
against a 1/4s cooldown is dropped, and the accepted-times chain holds on a
concrete one-run trace. -/
theorem damage_cooldown_respect_witness :
    handleDamageEvent (1/8) cooldownState cooldownEvent = (cooldownState, [], false)
    ∧ List.Chain' (fun a b => a + (1/4 : ℚ) ≤ b)
        (acceptedTimes 1 cooldownState [(1, [cooldownEvent])]) :=
  ⟨damage_cooldown_respect.1 (1/8) cooldownState cooldownEvent
      { time := 0, cooldown := 1/4 } rfl (by norm_num),
   damage_cooldown_respect.2.2 cooldownState [(1, [cooldownEvent])] 1 0 (1/4) rfl⟩

end Survivor
